import Mathlib

/-!
ChangesNotifier (GDL/IDE/ChangesNotifier.cpp)

A shallow embedding of the C++ platform notifier that decides, after an edit in
the IDE, which layouts are flagged (refresh / compilation needed), which
external events get a new last-change timestamp and which compilation tasks
are requested.

Conventions of the embedding

* A `gd::Layout &` / `gd::Layout *` argument is the position of that layout in
  `Project::layouts`; the null pointer is `none`.  A `gd::ExternalEvents &`
  argument is the position of the sheet in `Project::externalEvents`.
* Every call the notifier makes on a layout, on a sheet or on the code
  compiler is applied to the project and appended to `State.trace`, so that
  the order of the calls is observable.
* `wxDateTime::Now().GetTicks()` is read from `Collaborators.Now`; one
  notification is short enough for all its readings to agree.
-/

namespace ChangesNotifier

/-- Modelled from the spec: the event tree type (`gd::BaseEvent` lists) is not
under src/.  Spec §3 says an event tree matters only through its inclusion
references, so an event list is represented by the names of the external
sheets it directly includes. -/
abbrev Events := List String

/-- Stands for a `gd::Object &`; no operation of the notifier reads it. -/
abbrev Object := String

/-- Stands for a `gd::Automatism &`; no operation of the notifier reads it. -/
abbrev Automatism := String

/-- The part of `gd::Layout` the notifier reads or writes. -/
structure Layout where
  name : String
  events : Events
  refreshNeeded : Bool
  compilationNeeded : Bool
  automatismsSharedData : Nat
  deriving DecidableEq, Repr

/-- The part of `gd::ExternalEvents` the notifier reads or writes. -/
structure ExternalEvents where
  name : String
  events : Events
  lastChangeTimeStamp : Int
  deriving DecidableEq, Repr

/-- The part of `gd::Project` the notifier reads or writes. -/
structure Project where
  layouts : List Layout
  externalEvents : List ExternalEvents
  imagesChanged : List String
  deriving DecidableEq, Repr

/-- One `OnEventsModified` call made back into the notifier by
`gd::EventsChangesNotifier`. -/
inductive EventsModifiedCall where
  | layout (scene : Nat) (indirectChange : Bool) (sourceOfTheIndirectChange : String)
  | externalEvents (events : Nat) (indirectChange : Bool) (sourceOfTheIndirectChange : String)
  deriving DecidableEq, Repr

/-- The code the notifier calls that is not in ChangesNotifier.cpp, taken as
parameters: the dependencies analyzer (constructed on the project at the time
of the call), the clock, the shared-data rebuild of a layout, and the two
`gd::EventsChangesNotifier` entry points, which answer with the
`OnEventsModified` calls they make. -/
structure Collaborators where
  ExternalEventsCanBeCompiledForAScene : Project → String → String
  GetExternalEventsDependencies : Project → Events → List String
  Now : Int
  UpdateAutomatismsSharedData : Project → Layout → Nat
  NotifyChangesInEventsOfScene : Project → Nat → List EventsModifiedCall
  NotifyChangesInEventsOfExternalEvents : Project → Nat → List EventsModifiedCall

/-- The calls the notifier makes on layouts, sheets, the project and the code
compiler. -/
inductive Action where
  | SetRefreshNeeded (scene : Nat)
  | SetCompilationNeeded (scene : Nat)
  | SetLastChangeTimeStamp (events : Nat) (ticks : Int)
  | UpdateAutomatismsSharedData (scene : Nat)
  | CreateSceneEventsCompilationTask (scene : Nat)
  | CreateExternalEventsCompilationTask (events : Nat)
  | imagesChangedPushBack (resourceName : String)
  deriving DecidableEq, Repr

/-- The project together with the calls made so far, oldest first. -/
structure State where
  project : Project
  trace : List Action
  deriving DecidableEq, Repr

inductive Error where
  | NotFound
  deriving DecidableEq, Repr

/-- `scene.GetName()`. -/
def GetName (p : Project) (scene : Nat) : String :=
  match p.layouts[scene]? with
  | some l => l.name
  | none => ""

/-- `scene->GetEvents()`. -/
def GetEvents (p : Project) (scene : Nat) : Events :=
  match p.layouts[scene]? with
  | some l => l.events
  | none => []

/-- `events.GetName()` of an external events sheet. -/
def GetExternalEventsName (p : Project) (events : Nat) : String :=
  match p.externalEvents[events]? with
  | some e => e.name
  | none => ""

/-- The position of the first sheet of that name (`std::find_if` over the sheets). -/
def findExternalEvents (name : String) : List ExternalEvents → Option Nat
  | [] => none
  | e :: es => if e.name = name then some 0 else (findExternalEvents name es).map (· + 1)

/-- Modelled from the spec: `gd::Project::HasExternalEventsNamed` is not under
src/.  Spec §6: the project model enumerates external sheets by name. -/
def HasExternalEventsNamed (p : Project) (name : String) : Bool :=
  p.externalEvents.any (fun e => decide (e.name = name))

/-- Modelled from the spec: `gd::Project::GetExternalEvents(const std::string &)`
is not under src/.  Spec §6: looking a unit up by name fails with NotFound if
it is absent. -/
def GetExternalEvents (p : Project) (name : String) : Except Error Nat :=
  match findExternalEvents name p.externalEvents with
  | some k => Except.ok k
  | none => Except.error Error.NotFound

/-- The effect of one call on the project.  Requesting a compilation task only
hands a task to the code compiler (modelled from the spec, §6: `scheduleRecompile`
is a sink executed by the caller; `CodeCompilationHelpers` is not under src/). -/
def applyAction (c : Collaborators) (a : Action) (p : Project) : Project :=
  match a with
  | Action.SetRefreshNeeded i =>
      { p with layouts := p.layouts.modify (fun l => { l with refreshNeeded := true }) i }
  | Action.SetCompilationNeeded i =>
      { p with layouts := p.layouts.modify (fun l => { l with compilationNeeded := true }) i }
  | Action.SetLastChangeTimeStamp k t =>
      { p with externalEvents :=
          p.externalEvents.modify (fun e => { e with lastChangeTimeStamp := t }) k }
  | Action.UpdateAutomatismsSharedData i =>
      { p with layouts := p.layouts.modify
                 (fun l => { l with automatismsSharedData := c.UpdateAutomatismsSharedData p l }) i }
  | Action.CreateSceneEventsCompilationTask _ => p
  | Action.CreateExternalEventsCompilationTask _ => p
  | Action.imagesChangedPushBack r => { p with imagesChanged := p.imagesChanged ++ [r] }

/-- Make one call: apply it and record it. -/
def perform (c : Collaborators) (a : Action) (s : State) : State :=
  { project := applyAction c a s.project, trace := s.trace ++ [a] }

/-- `for (unsigned int i = 0; i < game.GetLayoutCount(); ++i) body` -/
def forEachLayout (body : Nat → State → State) (s : State) : State :=
  (List.range s.project.layouts.length).foldl (fun acc i => body i acc) s

/-- `for (unsigned int i = 0; i < game.GetExternalEventsCount(); ++i) body` -/
def forEachExternalEvents (body : Nat → State → State) (s : State) : State :=
  (List.range s.project.externalEvents.length).foldl (fun acc i => body i acc) s

/-- ChangesNotifier.cpp:21-30. -/
def OnObjectEdited (c : Collaborators) (s : State) (scene : Option Nat) (_object : Object) :
    State :=
  match scene with
  | some i => perform c (Action.SetRefreshNeeded i) s
  | none => forEachLayout (fun i acc => perform c (Action.SetRefreshNeeded i) acc) s

/-- ChangesNotifier.cpp:211-243. -/
def RequestFullRecompilation (c : Collaborators) (s : State) (scene : Option Nat) :
    Except Error State :=
  match scene with
  | some i => do
      let s1 := perform c (Action.SetRefreshNeeded i) s
      let externalEventsDependencies :=
        c.GetExternalEventsDependencies s1.project (GetEvents s1.project i)
      let s2 ← externalEventsDependencies.foldlM
        (fun acc name =>
          if HasExternalEventsNamed acc.project name then do
            let k ← GetExternalEvents acc.project name
            pure (perform c (Action.SetLastChangeTimeStamp k c.Now) acc)
          else pure acc) s1
      pure (perform c (Action.CreateSceneEventsCompilationTask i) s2)
  | none =>
      let s1 := forEachLayout
        (fun i acc => perform c (Action.SetCompilationNeeded i) (perform c (Action.SetRefreshNeeded i) acc)) s
      pure (forEachExternalEvents
        (fun i acc => perform c (Action.SetLastChangeTimeStamp i c.Now) acc) s1)

/-- ChangesNotifier.cpp:245-254. -/
def RequestAutomatismsSharedDataUpdate (c : Collaborators) (s : State) (scene : Option Nat) :
    State :=
  match scene with
  | some i => perform c (Action.UpdateAutomatismsSharedData i) s
  | none => forEachLayout (fun i acc => perform c (Action.UpdateAutomatismsSharedData i) acc) s

/-- ChangesNotifier.cpp:32-35. -/
def OnObjectAdded (c : Collaborators) (s : State) (layout : Option Nat) (_object : Object) :
    Except Error State :=
  RequestFullRecompilation c s layout

/-- ChangesNotifier.cpp:36-39. -/
def OnObjectRenamed (c : Collaborators) (s : State) (layout : Option Nat) (_object : Object)
    (_oldName : String) : Except Error State :=
  RequestFullRecompilation c s layout

/-- ChangesNotifier.cpp:40-43. -/
def OnVariablesModified (c : Collaborators) (s : State) (layout : Option Nat) :
    Except Error State :=
  RequestFullRecompilation c s layout

/-- ChangesNotifier.cpp:44-47. -/
def OnObjectGroupAdded (c : Collaborators) (s : State) (layout : Option Nat)
    (_groupName : String) : Except Error State :=
  RequestFullRecompilation c s layout

/-- ChangesNotifier.cpp:48-51. -/
def OnObjectGroupEdited (c : Collaborators) (s : State) (layout : Option Nat)
    (_groupName : String) : Except Error State :=
  RequestFullRecompilation c s layout

/-- ChangesNotifier.cpp:52-55. -/
def OnObjectGroupRenamed (c : Collaborators) (s : State) (layout : Option Nat)
    (_groupName : String) (_oldName : String) : Except Error State :=
  RequestFullRecompilation c s layout

/-- ChangesNotifier.cpp:56-59. -/
def OnObjectGroupDeleted (c : Collaborators) (s : State) (layout : Option Nat)
    (_groupName : String) : Except Error State :=
  RequestFullRecompilation c s layout

/-- ChangesNotifier.cpp:61-65. -/
def OnObjectsDeleted (c : Collaborators) (s : State) (layout : Option Nat)
    (_deletedObjects : List String) : Except Error State :=
  RequestFullRecompilation c (RequestAutomatismsSharedDataUpdate c s layout) layout

/-- ChangesNotifier.cpp:67-76. -/
def OnAutomatismEdited (c : Collaborators) (s : State) (scene : Option Nat) (_object : Object)
    (_automatism : Automatism) : State :=
  match scene with
  | some i => perform c (Action.SetRefreshNeeded i) s
  | none => forEachLayout (fun i acc => perform c (Action.SetRefreshNeeded i) acc) s

/-- ChangesNotifier.cpp:78-82. -/
def OnAutomatismAdded (c : Collaborators) (s : State) (layout : Option Nat) (_object : Object)
    (_automatism : Automatism) : Except Error State :=
  RequestFullRecompilation c (RequestAutomatismsSharedDataUpdate c s layout) layout

/-- ChangesNotifier.cpp:84-88. -/
def OnAutomatismRenamed (c : Collaborators) (s : State) (layout : Option Nat) (_object : Object)
    (_automatism : Automatism) (_oldName : String) : Except Error State :=
  RequestFullRecompilation c (RequestAutomatismsSharedDataUpdate c s layout) layout

/-- ChangesNotifier.cpp:90-94. -/
def OnAutomatismDeleted (c : Collaborators) (s : State) (layout : Option Nat) (_object : Object)
    (_automatismName : String) : Except Error State :=
  RequestFullRecompilation c (RequestAutomatismsSharedDataUpdate c s layout) layout

/-- ChangesNotifier.cpp:96-112. -/
def OnObjectVariablesChanged (c : Collaborators) (s : State) (scene : Option Nat)
    (_object : Object) : State :=
  match scene with
  | some i => perform c (Action.SetRefreshNeeded i) s
  | none =>
      let s1 := forEachLayout
        (fun i acc => perform c (Action.SetCompilationNeeded i) (perform c (Action.SetRefreshNeeded i) acc)) s
      forEachExternalEvents (fun i acc => perform c (Action.SetLastChangeTimeStamp i c.Now) acc) s1

/-- ChangesNotifier.cpp:114-136, the overload taking a `gd::Layout &`. -/
def OnEventsModified_Layout (c : Collaborators) (s : State) (scene : Nat) (indirectChange : Bool)
    (sourceOfTheIndirectChange : String) : State :=
  let s1 := perform c (Action.SetRefreshNeeded scene) s
  if !indirectChange then
    perform c (Action.CreateSceneEventsCompilationTask scene)
      (perform c (Action.SetCompilationNeeded scene) s1)
  else
    if c.ExternalEventsCanBeCompiledForAScene s1.project sourceOfTheIndirectChange
        = GetName s1.project scene then
      s1
    else
      perform c (Action.CreateSceneEventsCompilationTask scene)
        (perform c (Action.SetCompilationNeeded scene) s1)

/-- ChangesNotifier.cpp:138-171, the overload taking a `gd::ExternalEvents &`. -/
def OnEventsModified_ExternalEvents (c : Collaborators) (s : State) (events : Nat)
    (indirectChange : Bool) (sourceOfTheIndirectChange : String) : State :=
  let associatedScene :=
    c.ExternalEventsCanBeCompiledForAScene s.project (GetExternalEventsName s.project events)
  let externalEventsAreCompiledSeparately : Bool := !decide (associatedScene = "")
  if externalEventsAreCompiledSeparately then
    if !indirectChange then
      if c.ExternalEventsCanBeCompiledForAScene s.project sourceOfTheIndirectChange
          = associatedScene then
        s
      else
        perform c (Action.CreateExternalEventsCompilationTask events)
          (perform c (Action.SetLastChangeTimeStamp events c.Now) s)
    else
      perform c (Action.CreateExternalEventsCompilationTask events)
        (perform c (Action.SetLastChangeTimeStamp events c.Now) s)
  else s

/-- Run the `OnEventsModified` calls made by `gd::EventsChangesNotifier`, in order. -/
def runEventsModifiedCalls (c : Collaborators) (calls : List EventsModifiedCall) (s : State) :
    State :=
  calls.foldl
    (fun acc call =>
      match call with
      | EventsModifiedCall.layout i indirect source =>
          OnEventsModified_Layout c acc i indirect source
      | EventsModifiedCall.externalEvents k indirect source =>
          OnEventsModified_ExternalEvents c acc k indirect source)
    s

/-- Modelled from the spec: `gd::EventsChangesNotifier::NotifyChangesInEventsOfScene` is
not under src/.  Spec §4.2: the scenes are re-examined "using the same events changed
indirectly logic", that is through `OnEventsModified` calls.  ChangesNotifier.cpp:173-177. -/
def OnLayoutAdded (c : Collaborators) (s : State) (layout : Nat) : State :=
  runEventsModifiedCalls c (c.NotifyChangesInEventsOfScene s.project layout) s

/-- Modelled from the spec: as `OnLayoutAdded`.  ChangesNotifier.cpp:179-183. -/
def OnLayoutRenamed (c : Collaborators) (s : State) (layout : Nat) (_oldName : String) : State :=
  runEventsModifiedCalls c (c.NotifyChangesInEventsOfScene s.project layout) s

/-- Modelled from the spec: `gd::EventsChangesNotifier::NotifyChangesInEventsOfExternalEvents`
is not under src/; it is treated as `NotifyChangesInEventsOfScene` is.
ChangesNotifier.cpp:185-189. -/
def OnExternalEventsAdded (c : Collaborators) (s : State) (events : Nat) : State :=
  runEventsModifiedCalls c (c.NotifyChangesInEventsOfExternalEvents s.project events) s

/-- Modelled from the spec: as `OnExternalEventsAdded`.  ChangesNotifier.cpp:191-195. -/
def OnExternalEventsRenamed (c : Collaborators) (s : State) (events : Nat) (_oldName : String) :
    State :=
  runEventsModifiedCalls c (c.NotifyChangesInEventsOfExternalEvents s.project events) s

/-- ChangesNotifier.cpp:197-200. -/
def OnExternalEventsDeleted (c : Collaborators) (s : State) (_deletedLayout : String) :
    Except Error State :=
  RequestFullRecompilation c s none

/-- ChangesNotifier.cpp:202-209. -/
def OnLayoutDeleted (c : Collaborators) (s : State) (_deletedLayout : String) :
    Except Error State :=
  RequestFullRecompilation c s none

/-- ChangesNotifier.cpp:256-259. -/
def OnResourceModified (c : Collaborators) (s : State) (resourceName : String) : State :=
  perform c (Action.imagesChangedPushBack resourceName) s

/-- The operations of `ChangesNotifier`, one constructor per member function. -/
inductive Op where
  | OnObjectEdited (scene : Option Nat) (object : Object)
  | OnObjectAdded (layout : Option Nat) (object : Object)
  | OnObjectRenamed (layout : Option Nat) (object : Object) (oldName : String)
  | OnVariablesModified (layout : Option Nat)
  | OnObjectGroupAdded (layout : Option Nat) (groupName : String)
  | OnObjectGroupEdited (layout : Option Nat) (groupName : String)
  | OnObjectGroupRenamed (layout : Option Nat) (groupName : String) (oldName : String)
  | OnObjectGroupDeleted (layout : Option Nat) (groupName : String)
  | OnObjectsDeleted (layout : Option Nat) (deletedObjects : List String)
  | OnAutomatismEdited (scene : Option Nat) (object : Object) (automatism : Automatism)
  | OnAutomatismAdded (layout : Option Nat) (object : Object) (automatism : Automatism)
  | OnAutomatismRenamed (layout : Option Nat) (object : Object) (automatism : Automatism)
      (oldName : String)
  | OnAutomatismDeleted (layout : Option Nat) (object : Object) (automatismName : String)
  | OnObjectVariablesChanged (scene : Option Nat) (object : Object)
  | OnEventsModified_Layout (scene : Nat) (indirectChange : Bool)
      (sourceOfTheIndirectChange : String)
  | OnEventsModified_ExternalEvents (events : Nat) (indirectChange : Bool)
      (sourceOfTheIndirectChange : String)
  | OnLayoutAdded (layout : Nat)
  | OnLayoutRenamed (layout : Nat) (oldName : String)
  | OnExternalEventsAdded (events : Nat)
  | OnExternalEventsRenamed (events : Nat) (oldName : String)
  | OnExternalEventsDeleted (deletedLayout : String)
  | OnLayoutDeleted (deletedLayout : String)
  | OnResourceModified (resourceName : String)
  deriving DecidableEq, Repr

/-- Run one operation of the notifier. -/
def step (c : Collaborators) (op : Op) (s : State) : Except Error State :=
  match op with
  | Op.OnObjectEdited scene object => pure (OnObjectEdited c s scene object)
  | Op.OnObjectAdded layout object => OnObjectAdded c s layout object
  | Op.OnObjectRenamed layout object oldName => OnObjectRenamed c s layout object oldName
  | Op.OnVariablesModified layout => OnVariablesModified c s layout
  | Op.OnObjectGroupAdded layout groupName => OnObjectGroupAdded c s layout groupName
  | Op.OnObjectGroupEdited layout groupName => OnObjectGroupEdited c s layout groupName
  | Op.OnObjectGroupRenamed layout groupName oldName =>
      OnObjectGroupRenamed c s layout groupName oldName
  | Op.OnObjectGroupDeleted layout groupName => OnObjectGroupDeleted c s layout groupName
  | Op.OnObjectsDeleted layout deletedObjects => OnObjectsDeleted c s layout deletedObjects
  | Op.OnAutomatismEdited scene object automatism =>
      pure (OnAutomatismEdited c s scene object automatism)
  | Op.OnAutomatismAdded layout object automatism =>
      OnAutomatismAdded c s layout object automatism
  | Op.OnAutomatismRenamed layout object automatism oldName =>
      OnAutomatismRenamed c s layout object automatism oldName
  | Op.OnAutomatismDeleted layout object automatismName =>
      OnAutomatismDeleted c s layout object automatismName
  | Op.OnObjectVariablesChanged scene object => pure (OnObjectVariablesChanged c s scene object)
  | Op.OnEventsModified_Layout scene indirectChange source =>
      pure (OnEventsModified_Layout c s scene indirectChange source)
  | Op.OnEventsModified_ExternalEvents events indirectChange source =>
      pure (OnEventsModified_ExternalEvents c s events indirectChange source)
  | Op.OnLayoutAdded layout => pure (OnLayoutAdded c s layout)
  | Op.OnLayoutRenamed layout oldName => pure (OnLayoutRenamed c s layout oldName)
  | Op.OnExternalEventsAdded events => pure (OnExternalEventsAdded c s events)
  | Op.OnExternalEventsRenamed events oldName => pure (OnExternalEventsRenamed c s events oldName)
  | Op.OnExternalEventsDeleted deletedLayout => OnExternalEventsDeleted c s deletedLayout
  | Op.OnLayoutDeleted deletedLayout => OnLayoutDeleted c s deletedLayout
  | Op.OnResourceModified resourceName => pure (OnResourceModified c s resourceName)

/-! ## A dependencies analyzer, for the worked scenarios -/

/-- Modelled from the spec: `DependenciesAnalyzer` (GDL/IDE/DependenciesAnalyzer.h) is not
under src/.  The event list of the external sheet of that name (empty when the project has no
such sheet). -/
def sheetEvents (p : Project) (name : String) : Events :=
  match p.externalEvents.find? (fun e => decide (e.name = name)) with
  | some e => e.events
  | none => []

/-- Modelled from the spec: §4.1, the walk over inclusion references; a sheet already visited
is recorded but not descended into again. -/
def collectDependencies (p : Project) : Nat → Events → List String → List String
  | 0, _, visited => visited
  | fuel + 1, events, visited =>
      events.foldl
        (fun acc name =>
          if name ∈ acc then acc
          else collectDependencies p fuel (sheetEvents p name) (acc ++ [name]))
        visited

/-- Modelled from the spec: §3, `externalDependenciesOf`, the external sheets transitively
reachable from an event tree. -/
def externalDependenciesOf (p : Project) (events : Events) : List String :=
  collectDependencies p (p.externalEvents.length + 1) events []

/-- Modelled from the spec: §3 and I2, `exclusiveOwnerOf`: the name of the single scene whose
transitive inclusion set contains the sheet, and the empty string ("none") when no scene or
more than one scene reaches it. -/
def exclusiveOwnerOf (p : Project) (sheet : String) : String :=
  match p.layouts.filter (fun l => decide (sheet ∈ externalDependenciesOf p l.events)) with
  | [l] => l.name
  | _ => ""

/-- The collaborators with the analyzer of the spec and a clock reading `now`. -/
def specCollaborators (now : Int) : Collaborators where
  ExternalEventsCanBeCompiledForAScene := exclusiveOwnerOf
  GetExternalEventsDependencies := externalDependenciesOf
  Now := now
  UpdateAutomatismsSharedData := fun _ l => l.automatismsSharedData + 1
  NotifyChangesInEventsOfScene := fun _ i => [EventsModifiedCall.layout i false ""]
  NotifyChangesInEventsOfExternalEvents := fun _ k => [EventsModifiedCall.externalEvents k false ""]

/-- Spec §8, the scenario: scenes A and B, sheet X included only by A, sheet Y included by
both A and B.  Nothing is flagged and the sheets carry timestamp 0. -/
def scenario : Project where
  layouts :=
    [ { name := "A", events := ["X", "Y"], refreshNeeded := false, compilationNeeded := false,
        automatismsSharedData := 0 },
      { name := "B", events := ["Y"], refreshNeeded := false, compilationNeeded := false,
        automatismsSharedData := 0 } ]
  externalEvents :=
    [ { name := "X", events := [], lastChangeTimeStamp := 0 },
      { name := "Y", events := [], lastChangeTimeStamp := 0 } ]
  imagesChanged := []

/-! ## Action sequences -/

/-- Make the calls of a list, in order. -/
def performAll (c : Collaborators) (acts : List Action) (s : State) : State :=
  acts.foldl (fun acc a => perform c a acc) s

/-- The effect of a list of calls on the project. -/
def replay (c : Collaborators) (acts : List Action) (p : Project) : Project :=
  acts.foldl (fun acc a => applyAction c a acc) p

/-- The timestamp calls made for a list of dependency names: one for each name that has a
sheet in the project, on the first sheet of that name. -/
def stampActions (c : Collaborators) (p : Project) (names : List String) : List Action :=
  names.filterMap
    (fun name => (findExternalEvents name p.externalEvents).map
      (fun k => Action.SetLastChangeTimeStamp k c.Now))

/-- The calls of `RequestFullRecompilation` on project `p`. -/
def fullRecompilationActions (c : Collaborators) (p : Project) : Option Nat → List Action
  | some i =>
      Action.SetRefreshNeeded i ::
        (stampActions c p
            (c.GetExternalEventsDependencies (applyAction c (Action.SetRefreshNeeded i) p)
              (GetEvents p i))
          ++ [Action.CreateSceneEventsCompilationTask i])
  | none =>
      (List.range p.layouts.length).flatMap
          (fun i => [Action.SetRefreshNeeded i, Action.SetCompilationNeeded i])
        ++ (List.range p.externalEvents.length).map
          (fun k => Action.SetLastChangeTimeStamp k c.Now)

/-- The calls of `RequestAutomatismsSharedDataUpdate` on project `p`. -/
def sharedDataUpdateActions (p : Project) : Option Nat → List Action
  | some i => [Action.UpdateAutomatismsSharedData i]
  | none => (List.range p.layouts.length).map Action.UpdateAutomatismsSharedData

/-- The project after a broadcast full recompilation: every layout flagged twice, every sheet
stamped. -/
def allDirty (c : Collaborators) (p : Project) : Project :=
  { p with
    layouts := p.layouts.map
      (fun l => { l with refreshNeeded := true, compilationNeeded := true })
    externalEvents := p.externalEvents.map (fun e => { e with lastChangeTimeStamp := c.Now }) }

/-- The state after sheet `X` (whose record is `e`) has been stamped with the current time
and an external-events compilation task has been requested for it; nothing else differs
from `s`. -/
def stampedAndScheduled (c : Collaborators) (s : State) (X : Nat) (e : ExternalEvents) : State :=
  { project :=
      { s.project with
        externalEvents := s.project.externalEvents.set X { e with lastChangeTimeStamp := c.Now } }
    trace := s.trace ++
      [Action.SetLastChangeTimeStamp X c.Now, Action.CreateExternalEventsCompilationTask X] }

/-- Whether a call requests a compilation task. -/
def Action.isTask : Action → Bool
  | Action.CreateSceneEventsCompilationTask _ => true
  | Action.CreateExternalEventsCompilationTask _ => true
  | _ => false

/-- Whether a call is the shared-data rebuild of a layout. -/
def Action.isSharedDataUpdate : Action → Bool
  | Action.UpdateAutomatismsSharedData _ => true
  | _ => false

/-- The two dirty flags of a layout: refresh-needed, compilation-needed. -/
def Layout.flags (l : Layout) : Bool × Bool :=
  (l.refreshNeeded, l.compilationNeeded)

/-- Every call of the list that marks a layout compilation-needed, or requests its scene
compilation task, comes with a SetRefreshNeeded call on the same layout. -/
def Accompanied (acts : List Action) : Prop :=
  ∀ j, (Action.SetCompilationNeeded j ∈ acts ∨ Action.CreateSceneEventsCompilationTask j ∈ acts) →
    Action.SetRefreshNeeded j ∈ acts

/-- A project in which a layout has the empty name: that layout and layout B both include
sheet Y, so that Y has no exclusive owner. -/
def unnamedSceneProject : Project where
  layouts :=
    [ { name := "", events := ["Y"], refreshNeeded := false, compilationNeeded := false,
        automatismsSharedData := 0 },
      { name := "B", events := ["Y"], refreshNeeded := false, compilationNeeded := false,
        automatismsSharedData := 0 } ]
  externalEvents := [ { name := "Y", events := [], lastChangeTimeStamp := 0 } ]
  imagesChanged := []

/-- The scenario of spec §8 with one more inclusion in scene A, of a sheet "Gone" that the
project does not have. -/
def scenarioWithMissingSheet : Project :=
  { scenario with
    layouts :=
      [ { name := "A", events := ["X", "Gone"], refreshNeeded := false,
          compilationNeeded := false, automatismsSharedData := 0 },
        { name := "B", events := ["Y"], refreshNeeded := false, compilationNeeded := false,
          automatismsSharedData := 0 } ] }

/-! ## Lists -/

theorem foldl_modify_range_getElem? {α : Type} (f : α → α) (l : List α) (k m : Nat) :
    ((List.range k).foldl (fun acc i => acc.modify f i) l)[m]? =
      if m < k then l[m]?.map f else l[m]? := by
  induction k with
  | zero => simp
  | succ k ih =>
    rw [List.range_succ, List.foldl_append]
    simp only [List.foldl_cons, List.foldl_nil, List.getElem?_modify, ih]
    by_cases h1 : m < k
    · have : k ≠ m := by omega
      have h2 : m < k + 1 := by omega
      simp [h1, h2, this]
    · by_cases h2 : k = m
      · subst h2
        simp
      · have h3 : ¬ m < k + 1 := by omega
        simp [h1, h2, h3]

theorem foldl_modify_range {α : Type} (f : α → α) (l : List α) :
    (List.range l.length).foldl (fun acc i => acc.modify f i) l = l.map f := by
  apply List.ext_getElem?
  intro m
  rw [foldl_modify_range_getElem?, List.getElem?_map]
  by_cases h : m < l.length
  · simp [h]
  · have : l[m]? = none := by simp; omega
    simp [h, this]

theorem modify_modify {α : Type} (f g : α → α) (l : List α) (i : Nat) :
    (l.modify f i).modify g i = l.modify (g ∘ f) i := by
  apply List.ext_getElem?
  intro m
  simp only [List.getElem?_modify]
  by_cases h : i = m <;> cases l[m]? <;> simp [h]

theorem modify_eq_set_of_getElem? {α : Type} (f : α → α) (l : List α) (i : Nat) (a : α)
    (h : l[i]? = some a) : l.modify f i = l.set i (f a) := by
  apply List.ext_getElem?
  intro m
  simp only [List.getElem?_modify, List.getElem?_set]
  by_cases hm : i = m
  · subst hm
    have hlt : i < l.length := by
      rcases List.getElem?_eq_some.mp h with ⟨hlt, _⟩
      exact hlt
    simp [h, hlt]
  · cases l[m]? <;> simp [hm]

/-! ## Calls and their replay -/

theorem performAll_eq (c : Collaborators) (acts : List Action) (s : State) :
    performAll c acts s = { project := replay c acts s.project, trace := s.trace ++ acts } := by
  induction acts generalizing s with
  | nil => simp [performAll, replay]
  | cons a as ih =>
    have h := ih (perform c a s)
    simp only [performAll, replay, List.foldl_cons] at h ⊢
    rw [h]
    simp [perform]

theorem performAll_append (c : Collaborators) (as bs : List Action) (s : State) :
    performAll c (as ++ bs) s = performAll c bs (performAll c as s) := by
  simp [performAll, List.foldl_append]

theorem replay_append (c : Collaborators) (as bs : List Action) (p : Project) :
    replay c (as ++ bs) p = replay c bs (replay c as p) := by
  simp [replay, List.foldl_append]

theorem foldl_performAll (c : Collaborators) (g : Nat → List Action) (is : List Nat) (s : State) :
    is.foldl (fun acc i => performAll c (g i) acc) s = performAll c (is.flatMap g) s := by
  induction is generalizing s with
  | nil => simp [performAll]
  | cons i is ih =>
    simp only [List.foldl_cons, List.flatMap_cons, performAll_append]
    exact ih _

theorem forEachLayout_perform (c : Collaborators) (g : Nat → List Action) (s : State) :
    forEachLayout (fun i acc => performAll c (g i) acc) s =
      performAll c ((List.range s.project.layouts.length).flatMap g) s := by
  unfold forEachLayout
  exact foldl_performAll c g _ s

theorem forEachExternalEvents_perform (c : Collaborators) (g : Nat → List Action) (s : State) :
    forEachExternalEvents (fun i acc => performAll c (g i) acc) s =
      performAll c ((List.range s.project.externalEvents.length).flatMap g) s := by
  unfold forEachExternalEvents
  exact foldl_performAll c g _ s

/-- Replaying calls that each rewrite one layout by `f` rewrites every layout by `f`. -/
theorem replay_layouts_range (c : Collaborators) (f : Layout → Layout) (g : Nat → List Action)
    (hg : ∀ i p, replay c (g i) p = { p with layouts := p.layouts.modify f i }) (p : Project)
    (n : Nat) (hn : n = p.layouts.length) :
    replay c ((List.range n).flatMap g) p = { p with layouts := p.layouts.map f } := by
  subst hn
  have key : ∀ (is : List Nat) (q : Project),
      replay c (is.flatMap g) q =
        { q with layouts := is.foldl (fun acc i => acc.modify f i) q.layouts } := by
    intro is
    induction is with
    | nil => intro q; simp [replay]
    | cons i is ih =>
      intro q
      rw [List.flatMap_cons, replay_append, hg, ih]
      simp
  rw [key, foldl_modify_range]

/-- Replaying calls that each rewrite one sheet by `f` rewrites every sheet by `f`. -/
theorem replay_externalEvents_range (c : Collaborators) (f : ExternalEvents → ExternalEvents)
    (g : Nat → List Action)
    (hg : ∀ i p, replay c (g i) p = { p with externalEvents := p.externalEvents.modify f i })
    (p : Project) (n : Nat) (hn : n = p.externalEvents.length) :
    replay c ((List.range n).flatMap g) p =
      { p with externalEvents := p.externalEvents.map f } := by
  subst hn
  have key : ∀ (is : List Nat) (q : Project),
      replay c (is.flatMap g) q =
        { q with externalEvents := is.foldl (fun acc i => acc.modify f i) q.externalEvents } := by
    intro is
    induction is with
    | nil => intro q; simp [replay]
    | cons i is ih =>
      intro q
      rw [List.flatMap_cons, replay_append, hg, ih]
      simp
  rw [key, foldl_modify_range]

theorem flatMap_singleton_eq_map {α β : Type} (f : α → β) (l : List α) :
    l.flatMap (fun i => [f i]) = l.map f := by
  induction l with
  | nil => rfl
  | cons a as ih => simp [List.flatMap_cons, ih]

/-! ## The broadcast branch (`scene == NULL`) -/

theorem replay_refresh_compile (c : Collaborators) (i : Nat) (p : Project) :
    replay c [Action.SetRefreshNeeded i, Action.SetCompilationNeeded i] p =
      { p with
        layouts := p.layouts.modify
          (fun l => { l with refreshNeeded := true, compilationNeeded := true }) i } := by
  simp only [replay, List.foldl_cons, List.foldl_nil, applyAction, modify_modify]
  rfl

theorem replay_stamp (c : Collaborators) (k : Nat) (p : Project) :
    replay c [Action.SetLastChangeTimeStamp k c.Now] p =
      { p with
        externalEvents := p.externalEvents.modify
          (fun e => { e with lastChangeTimeStamp := c.Now }) k } := by
  simp [replay, applyAction]

theorem replay_refresh (c : Collaborators) (i : Nat) (p : Project) :
    replay c [Action.SetRefreshNeeded i] p =
      { p with layouts := p.layouts.modify (fun l => { l with refreshNeeded := true }) i } := by
  simp [replay, applyAction]

/-- Replaying the broadcast calls flags every layout and stamps every sheet. -/
theorem replay_broadcast (c : Collaborators) (p : Project) :
    replay c (fullRecompilationActions c p none) p = allDirty c p := by
  simp only [fullRecompilationActions, replay_append]
  rw [replay_layouts_range c _ _ (replay_refresh_compile c) p _ rfl]
  rw [← flatMap_singleton_eq_map]
  exact replay_externalEvents_range c _ _ (replay_stamp c) _ _ rfl

/-- The two loops of the `scene == NULL` branch of `RequestFullRecompilation` (and of
`OnObjectVariablesChanged`) make the broadcast calls. -/
theorem broadcast_eq (c : Collaborators) (s : State) :
    forEachExternalEvents (fun i acc => perform c (Action.SetLastChangeTimeStamp i c.Now) acc)
        (forEachLayout
          (fun i acc =>
            perform c (Action.SetCompilationNeeded i) (perform c (Action.SetRefreshNeeded i) acc))
          s) =
      performAll c (fullRecompilationActions c s.project none) s := by
  have h1 := forEachLayout_perform c
    (fun i => [Action.SetRefreshNeeded i, Action.SetCompilationNeeded i]) s
  have h2 := fun s1 => forEachExternalEvents_perform c
    (fun k => [Action.SetLastChangeTimeStamp k c.Now]) s1
  simp only [performAll, List.foldl_cons, List.foldl_nil] at h1 h2
  rw [h1, h2]
  simp only [← performAll.eq_1]
  have hlen : (performAll c ((List.range s.project.layouts.length).flatMap
      (fun i => [Action.SetRefreshNeeded i, Action.SetCompilationNeeded i])) s).project.externalEvents
      = s.project.externalEvents := by
    rw [performAll_eq, replay_layouts_range c _ _ (replay_refresh_compile c) s.project _ rfl]
  rw [hlen, ← performAll_append, flatMap_singleton_eq_map]
  rfl

/-! ## Lookup of a sheet by name -/

theorem has_eq_isSome (p : Project) (name : String) :
    HasExternalEventsNamed p name = (findExternalEvents name p.externalEvents).isSome := by
  unfold HasExternalEventsNamed
  induction p.externalEvents with
  | nil => rfl
  | cons e es ih =>
    simp only [List.any_cons, findExternalEvents, ih]
    by_cases h : e.name = name
    · simp [h]
    · cases hf : findExternalEvents name es <;> simp [h]

theorem findExternalEvents_congr (name : String) :
    ∀ (l1 l2 : List ExternalEvents),
      l1.map ExternalEvents.name = l2.map ExternalEvents.name →
        findExternalEvents name l1 = findExternalEvents name l2
  | [], [], _ => rfl
  | [], _ :: _, h => by simp at h
  | _ :: _, [], h => by simp at h
  | e1 :: es1, e2 :: es2, h => by
    simp only [List.map_cons, List.cons.injEq] at h
    simp only [findExternalEvents, h.1, findExternalEvents_congr name es1 es2 h.2]

theorem map_name_modify_stamp (t : Int) (k : Nat) (l : List ExternalEvents) :
    (l.modify (fun e => { e with lastChangeTimeStamp := t }) k).map ExternalEvents.name =
      l.map ExternalEvents.name := by
  apply List.ext_getElem?
  intro m
  simp only [List.getElem?_map, List.getElem?_modify]
  by_cases h : k = m <;> cases l[m]? <;> simp [h]

/-- No call renames a sheet. -/
theorem applyAction_sheet_names (c : Collaborators) (a : Action) (p : Project) :
    (applyAction c a p).externalEvents.map ExternalEvents.name =
      p.externalEvents.map ExternalEvents.name := by
  cases a <;> simp [applyAction, map_name_modify_stamp]

theorem stampActions_congr (c : Collaborators) (p q : Project) (names : List String)
    (h : q.externalEvents.map ExternalEvents.name = p.externalEvents.map ExternalEvents.name) :
    stampActions c q names = stampActions c p names := by
  unfold stampActions
  congr 1
  funext name
  rw [findExternalEvents_congr name _ _ h]

/-- The loop over the dependency names never takes the NotFound path: it makes exactly the
calls of `stampActions`. -/
theorem stampLoop_eq (c : Collaborators) (names : List String) (s : State) :
    names.foldlM
        (fun acc name =>
          if HasExternalEventsNamed acc.project name then do
            let k ← GetExternalEvents acc.project name
            pure (perform c (Action.SetLastChangeTimeStamp k c.Now) acc)
          else (pure acc : Except Error State)) s =
      Except.ok (performAll c (stampActions c s.project names) s) := by
  induction names generalizing s with
  | nil => simp [stampActions, performAll]; rfl
  | cons name names ih =>
    rw [List.foldlM_cons]
    cases hf : findExternalEvents name s.project.externalEvents with
    | none =>
      have hh : HasExternalEventsNamed s.project name = false := by
        rw [has_eq_isSome, hf]; rfl
      simp only [hh, Bool.false_eq_true, if_false]
      show List.foldlM _ s names = _
      rw [ih]
      simp [stampActions, hf]
    | some k =>
      have hh : HasExternalEventsNamed s.project name = true := by
        rw [has_eq_isSome, hf]; rfl
      have hg : GetExternalEvents s.project name = Except.ok k := by
        simp [GetExternalEvents, hf]
      simp only [hh, if_true, hg]
      show List.foldlM _ (perform c (Action.SetLastChangeTimeStamp k c.Now) s) names = _
      rw [ih]
      have hc : stampActions c (perform c (Action.SetLastChangeTimeStamp k c.Now) s).project names
          = stampActions c s.project names :=
        stampActions_congr c _ _ names (applyAction_sheet_names c _ _)
      rw [hc]
      simp [stampActions, hf, performAll]

theorem GetEvents_refresh (c : Collaborators) (i j : Nat) (p : Project) :
    GetEvents (applyAction c (Action.SetRefreshNeeded i) p) j = GetEvents p j := by
  simp only [GetEvents, applyAction, List.getElem?_modify]
  by_cases h : i = j <;> cases p.layouts[j]? <;> simp [h]

/-- `RequestFullRecompilation` always returns, having made the calls of
`fullRecompilationActions`. -/
theorem RequestFullRecompilation_eq (c : Collaborators) (s : State) (scene : Option Nat) :
    RequestFullRecompilation c s scene =
      Except.ok (performAll c (fullRecompilationActions c s.project scene) s) := by
  cases scene with
  | none =>
    simp only [RequestFullRecompilation, broadcast_eq]
    rfl
  | some i =>
    simp only [RequestFullRecompilation]
    rw [stampLoop_eq]
    show Except.ok _ = _
    have hc : stampActions c (perform c (Action.SetRefreshNeeded i) s).project
        (c.GetExternalEventsDependencies (perform c (Action.SetRefreshNeeded i) s).project
          (GetEvents (perform c (Action.SetRefreshNeeded i) s).project i))
        = stampActions c s.project
            (c.GetExternalEventsDependencies (applyAction c (Action.SetRefreshNeeded i) s.project)
              (GetEvents s.project i)) := by
      simp only [perform]
      rw [stampActions_congr c s.project _ _ (applyAction_sheet_names c _ _), GetEvents_refresh]
    rw [hc]
    simp only [fullRecompilationActions, performAll, List.foldl_cons, List.foldl_append,
      List.foldl_nil]

/-! ## Events modified in a layout -/

theorem OnEventsModified_Layout_compile (c : Collaborators) (s : State) (S : Nat) (l : Layout)
    (hS : s.project.layouts[S]? = some l) :
    perform c (Action.CreateSceneEventsCompilationTask S)
        (perform c (Action.SetCompilationNeeded S) (perform c (Action.SetRefreshNeeded S) s)) =
      { project :=
          { s.project with
            layouts := s.project.layouts.set S
              { l with refreshNeeded := true, compilationNeeded := true } }
        trace := s.trace ++
          [Action.SetRefreshNeeded S, Action.SetCompilationNeeded S,
            Action.CreateSceneEventsCompilationTask S] } := by
  simp only [perform, applyAction, modify_modify]
  rw [modify_eq_set_of_getElem? _ _ _ _ hS]
  simp

theorem perform_refresh (c : Collaborators) (s : State) (S : Nat) (l : Layout)
    (hS : s.project.layouts[S]? = some l) :
    perform c (Action.SetRefreshNeeded S) s =
      { project :=
          { s.project with layouts := s.project.layouts.set S { l with refreshNeeded := true } }
        trace := s.trace ++ [Action.SetRefreshNeeded S] } := by
  simp only [perform, applyAction]
  rw [modify_eq_set_of_getElem? _ _ _ _ hS]

theorem GetName_set (p : Project) (S : Nat) (l l2 : Layout)
    (hS : p.layouts[S]? = some l) (hn : l2.name = l.name) :
    GetName { p with layouts := p.layouts.set S l2 } S = l.name := by
  have hlt : S < p.layouts.length := (List.getElem?_eq_some.mp hS).1
  simp [GetName, List.getElem?_set, hlt, hn]

/-- C1: a direct events change (`indirectChange = false`) reported on scene `S`, whatever the
origin string, marks `S` refresh-needed and compilation-needed and makes exactly the calls
SetRefreshNeeded(S), SetCompilationNeeded(S), CreateSceneEventsCompilationTask(S): the layout
list changes at position `S` only, the external sheets and every other part of the project are
unchanged, and the one task requested is the scene task of `S`. -/
theorem C1_direct_scene_edit (c : Collaborators) (s : State) (S : Nat) (l : Layout)
    (origin : String) (hS : s.project.layouts[S]? = some l) :
    OnEventsModified_Layout c s S false origin =
      { project :=
          { s.project with
            layouts := s.project.layouts.set S
              { l with refreshNeeded := true, compilationNeeded := true } }
        trace := s.trace ++
          [Action.SetRefreshNeeded S, Action.SetCompilationNeeded S,
            Action.CreateSceneEventsCompilationTask S] } := by
  simp only [OnEventsModified_Layout, Bool.not_false, if_true]
  exact OnEventsModified_Layout_compile c s S l hS

/-- Witness of C1 on the scenario of spec §8: a direct change in scene A (position 0). -/
theorem C1_direct_scene_edit_witness :
    scenario.layouts[0]? =
        some { name := "A", events := ["X", "Y"], refreshNeeded := false,
               compilationNeeded := false, automatismsSharedData := 0 } ∧
      OnEventsModified_Layout (specCollaborators 1000) { project := scenario, trace := [] } 0
          false "" =
        { project :=
            { scenario with
              layouts := scenario.layouts.set 0
                { name := "A", events := ["X", "Y"], refreshNeeded := true,
                  compilationNeeded := true, automatismsSharedData := 0 } }
          trace := [] ++
            [Action.SetRefreshNeeded 0, Action.SetCompilationNeeded 0,
              Action.CreateSceneEventsCompilationTask 0] } :=
  ⟨rfl, C1_direct_scene_edit (specCollaborators 1000) { project := scenario, trace := [] } 0 _ ""
    rfl⟩

/-- C2, as stated, fails: on the scenario of spec §8 the exclusive owner of sheet X is scene A
(before and after A is marked), yet an indirect change reported on A with origin X turns A's
refresh-needed flag from false to true and makes the call SetRefreshNeeded(A). -/
theorem C2_counterexample :
    exclusiveOwnerOf scenario "X" = GetName scenario 0 ∧
      exclusiveOwnerOf (applyAction (specCollaborators 1000) (Action.SetRefreshNeeded 0) scenario)
          "X" = GetName scenario 0 ∧
      (scenario.layouts[0]?).map Layout.refreshNeeded = some false ∧
      ((OnEventsModified_Layout (specCollaborators 1000) { project := scenario, trace := [] } 0
          true "X").project.layouts[0]?).map Layout.refreshNeeded = some true ∧
      (OnEventsModified_Layout (specCollaborators 1000) { project := scenario, trace := [] } 0
          true "X").trace = [Action.SetRefreshNeeded 0] := by
  decide

/-- C2, amended: when the analyzer (constructed after `S` has been marked refresh-needed)
returns the name of `S` for the origin, an indirect events change reported on scene `S` makes
the single call SetRefreshNeeded(S): `S` becomes refresh-needed, its compilation-needed flag
and every other layout, every sheet and the rest of the project are unchanged, and no
compilation task is requested. -/
theorem C2_indirect_covered_edit (c : Collaborators) (s : State) (S : Nat) (l : Layout)
    (origin : String) (hS : s.project.layouts[S]? = some l)
    (hown : c.ExternalEventsCanBeCompiledForAScene
        { s.project with layouts := s.project.layouts.set S { l with refreshNeeded := true } }
        origin = l.name) :
    OnEventsModified_Layout c s S true origin =
      { project :=
          { s.project with layouts := s.project.layouts.set S { l with refreshNeeded := true } }
        trace := s.trace ++ [Action.SetRefreshNeeded S] } := by
  simp only [OnEventsModified_Layout, Bool.not_true, Bool.false_eq_true, if_false]
  rw [perform_refresh c s S l hS]
  simp only []
  have hn := GetName_set s.project S l { l with refreshNeeded := true } hS rfl
  simp only [] at hn hown
  rw [hn, if_pos hown]

/-- Witness of the amended C2 on the scenario of spec §8: scene A, origin X (owned by A). -/
theorem C2_indirect_covered_edit_witness :
    OnEventsModified_Layout (specCollaborators 1000) { project := scenario, trace := [] } 0
        true "X" =
      { project :=
          { scenario with
            layouts := scenario.layouts.set 0
              { name := "A", events := ["X", "Y"], refreshNeeded := true,
                compilationNeeded := false, automatismsSharedData := 0 } }
        trace := [] ++ [Action.SetRefreshNeeded 0] } :=
  C2_indirect_covered_edit (specCollaborators 1000) { project := scenario, trace := [] } 0
    { name := "A", events := ["X", "Y"], refreshNeeded := false, compilationNeeded := false,
      automatismsSharedData := 0 }
    "X" rfl (by decide)

/-! ## Events modified in an external sheet -/

theorem GetExternalEventsName_eq (p : Project) (X : Nat) (e : ExternalEvents)
    (hX : p.externalEvents[X]? = some e) : GetExternalEventsName p X = e.name := by
  simp [GetExternalEventsName, hX]

theorem perform_stamp_schedule (c : Collaborators) (s : State) (X : Nat) (e : ExternalEvents)
    (hX : s.project.externalEvents[X]? = some e) :
    perform c (Action.CreateExternalEventsCompilationTask X)
        (perform c (Action.SetLastChangeTimeStamp X c.Now) s) =
      stampedAndScheduled c s X e := by
  simp only [perform, applyAction, stampedAndScheduled]
  rw [modify_eq_set_of_getElem? _ _ _ _ hX]
  simp

/-- C3, as stated, fails: on the scenario of spec §8 sheet Y (position 1) is included by both
scenes, the analyzer returns the empty string for it, and a direct change reported on Y leaves
the state as it was: the timestamp of Y is still 0, not the current time 1000, and no call at
all is made, so no compilation task is requested for Y. -/
theorem C3_counterexample :
    GetExternalEventsName scenario 1 = "Y" ∧
      exclusiveOwnerOf scenario "Y" = "" ∧
      OnEventsModified_ExternalEvents (specCollaborators 1000) { project := scenario, trace := [] }
          1 false "" = { project := scenario, trace := [] } ∧
      ((OnEventsModified_ExternalEvents (specCollaborators 1000)
          { project := scenario, trace := [] } 1 false "").project.externalEvents[1]?).map
            ExternalEvents.lastChangeTimeStamp = some 0 ∧
      Action.CreateExternalEventsCompilationTask 1 ∉
        (OnEventsModified_ExternalEvents (specCollaborators 1000)
          { project := scenario, trace := [] } 1 false "").trace := by
  decide

/-- C3, amended: when the analyzer returns the empty string for sheet `Y` (no exclusive
owner), an events change reported on `Y`, direct or indirect and whatever the origin, takes no
action: the timestamp of `Y` is unchanged, no compilation task is requested and no layout
flag changes (the state is returned as it was). -/
theorem C3_unowned_sheet_untouched (c : Collaborators) (s : State) (Y : Nat)
    (indirectChange : Bool) (origin : String)
    (hown : c.ExternalEventsCanBeCompiledForAScene s.project (GetExternalEventsName s.project Y)
      = "") :
    OnEventsModified_ExternalEvents c s Y indirectChange origin = s := by
  simp [OnEventsModified_ExternalEvents, hown]

/-- Witness of the amended C3 on the scenario of spec §8: sheet Y, shared by A and B. -/
theorem C3_unowned_sheet_untouched_witness :
    exclusiveOwnerOf scenario (GetExternalEventsName scenario 1) = "" ∧
      OnEventsModified_ExternalEvents (specCollaborators 1000) { project := scenario, trace := [] }
          1 false "" = { project := scenario, trace := [] } :=
  ⟨by decide,
    C3_unowned_sheet_untouched (specCollaborators 1000) { project := scenario, trace := [] } 1
      false "" (by decide)⟩

/-- C4, as stated, fails: on the scenario of spec §8 sheet X (position 0) is included only by
scene A, the analyzer returns "A" for it, and a direct change reported on X (origin: the empty
name, which has no owner) sets the timestamp of X to the current time 1000 and requests an
external-events compilation task for X. -/
theorem C4_counterexample :
    GetExternalEventsName scenario 0 = "X" ∧
      exclusiveOwnerOf scenario "X" = "A" ∧
      ((OnEventsModified_ExternalEvents (specCollaborators 1000)
          { project := scenario, trace := [] } 0 false "").project.externalEvents[0]?).map
            ExternalEvents.lastChangeTimeStamp = some 1000 ∧
      (OnEventsModified_ExternalEvents (specCollaborators 1000)
          { project := scenario, trace := [] } 0 false "").trace =
        [Action.SetLastChangeTimeStamp 0 1000, Action.CreateExternalEventsCompilationTask 0] := by
  decide

/-- C4, amended: when the analyzer returns a non-empty scene name for sheet `X`, an events
change reported on `X` does one of two things only: nothing, or stamping `X` with the current
time and requesting an external-events compilation task for `X`; so no layout flag, no other
sheet and no other task is ever touched.  Whenever the analyzer's answer for the origin differs
from its answer for `X`, direct or indirect, it is the second: `X` is stamped and scheduled. -/
theorem C4_owned_sheet_edit (c : Collaborators) (s : State) (X : Nat) (e : ExternalEvents)
    (indirectChange : Bool) (origin : String)
    (hX : s.project.externalEvents[X]? = some e)
    (hown : c.ExternalEventsCanBeCompiledForAScene s.project e.name ≠ "") :
    (OnEventsModified_ExternalEvents c s X indirectChange origin = s ∨
        OnEventsModified_ExternalEvents c s X indirectChange origin =
          stampedAndScheduled c s X e) ∧
      (c.ExternalEventsCanBeCompiledForAScene s.project origin ≠
          c.ExternalEventsCanBeCompiledForAScene s.project e.name →
        OnEventsModified_ExternalEvents c s X indirectChange origin =
          stampedAndScheduled c s X e) := by
  have hname := GetExternalEventsName_eq s.project X e hX
  have hb := perform_stamp_schedule c s X e hX
  simp only [OnEventsModified_ExternalEvents, hname, hown, decide_False, Bool.not_false, if_true,
    hb]
  cases indirectChange
  · by_cases ho : c.ExternalEventsCanBeCompiledForAScene s.project origin =
        c.ExternalEventsCanBeCompiledForAScene s.project e.name
    · simp [ho]
    · simp [ho]
  · simp

/-- Witness of the amended C4 on the scenario of spec §8: sheet X, owned by scene A, direct
change with an origin that has no owner. -/
theorem C4_owned_sheet_edit_witness :
    exclusiveOwnerOf scenario "X" ≠ "" ∧
      exclusiveOwnerOf scenario "" ≠ exclusiveOwnerOf scenario "X" ∧
      OnEventsModified_ExternalEvents (specCollaborators 1000) { project := scenario, trace := [] }
          0 false "" =
        stampedAndScheduled (specCollaborators 1000) { project := scenario, trace := [] } 0
          { name := "X", events := [], lastChangeTimeStamp := 0 } :=
  ⟨by decide, by decide,
    (C4_owned_sheet_edit (specCollaborators 1000) { project := scenario, trace := [] } 0
      { name := "X", events := [], lastChangeTimeStamp := 0 } false "" rfl (by decide)).2
      (by decide)⟩

/-! ## Deletions -/

/-- C5: for every project and every deleted name, `OnLayoutDeleted` returns, and after it every
layout of the project is refresh-needed and compilation-needed and every external sheet
carries the current time as last-change timestamp (`allDirty`), the calls made being the
broadcast ones; `OnExternalEventsDeleted` returns the same state. -/
theorem C5_deletion_broadcast (c : Collaborators) (s : State) (deletedLayout : String)
    (deletedEvents : String) :
    OnLayoutDeleted c s deletedLayout =
        Except.ok
          { project := allDirty c s.project
            trace := s.trace ++ fullRecompilationActions c s.project none } ∧
      OnExternalEventsDeleted c s deletedEvents = OnLayoutDeleted c s deletedLayout := by
  constructor
  · simp only [OnLayoutDeleted, RequestFullRecompilation_eq, performAll_eq, replay_broadcast]
  · rfl

/-! ## Cosmetic edits and global variable edits -/

theorem refreshLoop_performAll (c : Collaborators) (s : State) :
    forEachLayout (fun i acc => perform c (Action.SetRefreshNeeded i) acc) s =
      performAll c ((List.range s.project.layouts.length).map Action.SetRefreshNeeded) s := by
  have h1 := forEachLayout_perform c (fun i => [Action.SetRefreshNeeded i]) s
  simp only [performAll, List.foldl_cons, List.foldl_nil] at h1
  rw [h1, flatMap_singleton_eq_map]
  rfl

theorem refreshLoop_eq (c : Collaborators) (s : State) :
    forEachLayout (fun i acc => perform c (Action.SetRefreshNeeded i) acc) s =
      { project :=
          { s.project with
            layouts := s.project.layouts.map (fun l => { l with refreshNeeded := true }) }
        trace := s.trace ++ (List.range s.project.layouts.length).map Action.SetRefreshNeeded } := by
  rw [refreshLoop_performAll, performAll_eq, ← flatMap_singleton_eq_map,
    replay_layouts_range c _ _ (replay_refresh c) s.project _ rfl]

/-- C9: a cosmetic edit (`OnObjectEdited`, `OnAutomatismEdited`, and `OnObjectVariablesChanged`
with a scene) reported on scene `S` makes the single call SetRefreshNeeded(S): the layout list
is rewritten at position `S` only, by setting the refresh-needed flag.  With no scene,
`OnObjectEdited` and `OnAutomatismEdited` set the refresh-needed flag of every layout, one
SetRefreshNeeded call per layout.  In both cases no compilation-needed flag, no sheet and no
other part of the project changes, and no compilation task is requested. -/
theorem C9_cosmetic_edit (c : Collaborators) (s : State) (S : Nat) (object : Object)
    (automatism : Automatism) :
    (OnObjectEdited c s (some S) object =
        { project :=
            { s.project with
              layouts := s.project.layouts.modify (fun l => { l with refreshNeeded := true }) S }
          trace := s.trace ++ [Action.SetRefreshNeeded S] } ∧
      OnAutomatismEdited c s (some S) object automatism = OnObjectEdited c s (some S) object ∧
      OnObjectVariablesChanged c s (some S) object = OnObjectEdited c s (some S) object) ∧
    (OnObjectEdited c s none object =
        { project :=
            { s.project with
              layouts := s.project.layouts.map (fun l => { l with refreshNeeded := true }) }
          trace := s.trace ++
            (List.range s.project.layouts.length).map Action.SetRefreshNeeded } ∧
      OnAutomatismEdited c s none object automatism = OnObjectEdited c s none object) := by
  refine ⟨⟨?_, rfl, rfl⟩, ?_, rfl⟩
  · simp [OnObjectEdited, perform, applyAction]
  · simp only [OnObjectEdited]
    exact refreshLoop_eq c s

/-- C10: a global variable edit with no scene in scope (`OnObjectVariablesChanged` with
`scene = NULL`, `OnVariablesModified` with `layout = NULL`) leaves every layout of the project
refresh-needed and compilation-needed and every external sheet stamped with the current time
(`allDirty`); `OnVariablesModified` returns, with the same state. -/
theorem C10_global_variable_edit (c : Collaborators) (s : State) (object : Object) :
    OnObjectVariablesChanged c s none object =
        { project := allDirty c s.project
          trace := s.trace ++ fullRecompilationActions c s.project none } ∧
      OnVariablesModified c s none = Except.ok (OnObjectVariablesChanged c s none object) := by
  have h : OnObjectVariablesChanged c s none object =
      { project := allDirty c s.project
        trace := s.trace ++ fullRecompilationActions c s.project none } := by
    simp only [OnObjectVariablesChanged, broadcast_eq, performAll_eq, replay_broadcast]
  refine ⟨h, ?_⟩
  rw [h]
  simp only [OnVariablesModified, RequestFullRecompilation_eq, performAll_eq, replay_broadcast]

/-! ## Structural edits of one scene -/

theorem mem_stampActions (c : Collaborators) (p : Project) (names : List String) (a : Action)
    (h : a ∈ stampActions c p names) : ∃ k, a = Action.SetLastChangeTimeStamp k c.Now := by
  unfold stampActions at h
  rcases List.mem_filterMap.mp h with ⟨name, _, hname⟩
  cases hf : findExternalEvents name p.externalEvents with
  | none => simp [hf] at hname
  | some k =>
    refine ⟨k, ?_⟩
    simp [hf] at hname
    exact hname.symm

/-- Timestamp calls leave the layouts and the resource list alone. -/
theorem replay_stamps_frame (c : Collaborators) (acts : List Action) (p : Project)
    (h : ∀ a ∈ acts, ∃ k t, a = Action.SetLastChangeTimeStamp k t) :
    (replay c acts p).layouts = p.layouts ∧
      (replay c acts p).imagesChanged = p.imagesChanged := by
  induction acts generalizing p with
  | nil => simp [replay]
  | cons a as ih =>
    have ha : ∃ k t, a = Action.SetLastChangeTimeStamp k t := h a (List.mem_cons_self _ _)
    rcases ha with ⟨k, t, rfl⟩
    have ih2 := ih (applyAction c (Action.SetLastChangeTimeStamp k t) p)
      (fun b hb => h b (List.mem_cons_of_mem _ hb))
    simp only [replay, List.foldl_cons] at ih2 ⊢
    rw [ih2.1, ih2.2]
    simp [applyAction]

theorem stampActions_filter_isTask (c : Collaborators) (p : Project) (names : List String) :
    (stampActions c p names).filter Action.isTask = [] := by
  rw [List.filter_eq_nil_iff]
  intro a ha
  rcases mem_stampActions c p names a ha with ⟨k, rfl⟩
  simp [Action.isTask]

theorem stampActions_all_not_update (c : Collaborators) (p : Project) (names : List String) :
    (stampActions c p names).all (fun a => !a.isSharedDataUpdate) = true := by
  rw [List.all_eq_true]
  intro a ha
  rcases mem_stampActions c p names a ha with ⟨k, rfl⟩
  simp [Action.isSharedDataUpdate]

/-- The project after the calls of a scene-specific full recompilation request. -/
theorem replay_fullRecompilation_some (c : Collaborators) (p : Project) (A : Nat) :
    (replay c (fullRecompilationActions c p (some A)) p).layouts =
        p.layouts.modify (fun l => { l with refreshNeeded := true }) A ∧
      (replay c (fullRecompilationActions c p (some A)) p).imagesChanged = p.imagesChanged := by
  simp only [fullRecompilationActions]
  have hfr := replay_stamps_frame c
    (stampActions c p
      (c.GetExternalEventsDependencies (applyAction c (Action.SetRefreshNeeded A) p)
        (GetEvents p A)))
    (applyAction c (Action.SetRefreshNeeded A) p)
    (fun a ha => by
      rcases mem_stampActions c p _ a ha with ⟨k, rfl⟩
      exact ⟨k, c.Now, rfl⟩)
  simp only [replay, List.foldl_cons, List.foldl_append, List.foldl_nil] at hfr ⊢
  simp only [applyAction] at hfr ⊢
  exact hfr

/-- C7: a structural edit reported against scene `A` (`OnObjectAdded`, `OnObjectRenamed`,
`OnVariablesModified`, `OnObjectGroupAdded`, `OnObjectGroupEdited`, `OnObjectGroupRenamed`,
`OnObjectGroupDeleted` with `layout = A`) returns; it marks `A` refresh-needed and changes the
layout list at position `A` only; the calls it makes are SetRefreshNeeded(A), then timestamp
calls on dependency sheets, then CreateSceneEventsCompilationTask(A), so that the scene task
of `A` is the only task requested and no flag of another scene changes. -/
theorem C7_structural_edit_of_scene (c : Collaborators) (s : State) (A : Nat) (l : Layout)
    (object : Object) (oldName groupName : String) (op : Op)
    (hA : s.project.layouts[A]? = some l)
    (hop : op ∈
      [Op.OnObjectAdded (some A) object, Op.OnObjectRenamed (some A) object oldName,
        Op.OnVariablesModified (some A), Op.OnObjectGroupAdded (some A) groupName,
        Op.OnObjectGroupEdited (some A) groupName,
        Op.OnObjectGroupRenamed (some A) groupName oldName,
        Op.OnObjectGroupDeleted (some A) groupName]) :
    ∃ s', step c op s = Except.ok s' ∧
      s'.project.layouts = s.project.layouts.set A { l with refreshNeeded := true } ∧
      s'.project.imagesChanged = s.project.imagesChanged ∧
      s'.trace = s.trace ++ fullRecompilationActions c s.project (some A) ∧
      fullRecompilationActions c s.project (some A) =
        Action.SetRefreshNeeded A ::
          (stampActions c s.project
              (c.GetExternalEventsDependencies
                (applyAction c (Action.SetRefreshNeeded A) s.project) l.events)
            ++ [Action.CreateSceneEventsCompilationTask A]) ∧
      (fullRecompilationActions c s.project (some A)).filter Action.isTask =
        [Action.CreateSceneEventsCompilationTask A] := by
  have hstep : step c op s =
      Except.ok (performAll c (fullRecompilationActions c s.project (some A)) s) := by
    simp only [List.mem_cons, List.mem_singleton, List.not_mem_nil, or_false] at hop
    rcases hop with h | h | h | h | h | h | h <;> subst h <;>
      exact RequestFullRecompilation_eq c s (some A)
  have hrep := replay_fullRecompilation_some c s.project A
  refine ⟨_, hstep, ?_, ?_, ?_, ?_, ?_⟩
  · rw [performAll_eq]
    simp only []
    rw [hrep.1, modify_eq_set_of_getElem? _ _ _ _ hA]
  · rw [performAll_eq]
    exact hrep.2
  · rw [performAll_eq]
  · simp [fullRecompilationActions, GetEvents, hA]
  · simp [fullRecompilationActions, List.filter_cons, List.filter_append, Action.isTask,
      stampActions_filter_isTask]

/-- Witness of C7 on the scenario of spec §8: "object added to A" leaves B untouched. -/
theorem C7_structural_edit_of_scene_witness :
    ∃ s', step (specCollaborators 1000) (Op.OnObjectAdded (some 0) "crate")
          { project := scenario, trace := [] } = Except.ok s' ∧
      s'.project.layouts =
        scenario.layouts.set 0
          { name := "A", events := ["X", "Y"], refreshNeeded := true, compilationNeeded := false,
            automatismsSharedData := 0 } ∧
      s'.project.layouts[1]? = scenario.layouts[1]? ∧
      s'.trace =
        [Action.SetRefreshNeeded 0, Action.SetLastChangeTimeStamp 0 1000,
          Action.SetLastChangeTimeStamp 1 1000, Action.CreateSceneEventsCompilationTask 0] := by
  obtain ⟨s', h1, h2, _, h4, h5, _⟩ :=
    C7_structural_edit_of_scene (specCollaborators 1000) { project := scenario, trace := [] } 0
      { name := "A", events := ["X", "Y"], refreshNeeded := false, compilationNeeded := false,
        automatismsSharedData := 0 }
      "crate" "" "" (Op.OnObjectAdded (some 0) "crate") rfl (by simp)
  refine ⟨s', h1, h2, ?_, ?_⟩
  · rw [h2]; rfl
  · rw [h4, h5]; decide

/-! ## Deleted objects: shared data first -/

theorem RequestAutomatismsSharedDataUpdate_eq (c : Collaborators) (s : State)
    (scope : Option Nat) :
    RequestAutomatismsSharedDataUpdate c s scope =
      performAll c (sharedDataUpdateActions s.project scope) s := by
  cases scope with
  | some i => rfl
  | none =>
    have h1 := forEachLayout_perform c (fun i => [Action.UpdateAutomatismsSharedData i]) s
    simp only [performAll, List.foldl_cons, List.foldl_nil] at h1
    simp only [RequestAutomatismsSharedDataUpdate, h1, sharedDataUpdateActions,
      flatMap_singleton_eq_map, performAll]

theorem applyAction_update_frame (c : Collaborators) (i : Nat) (p : Project) :
    (applyAction c (Action.UpdateAutomatismsSharedData i) p).layouts.map Layout.flags =
        p.layouts.map Layout.flags ∧
      (applyAction c (Action.UpdateAutomatismsSharedData i) p).externalEvents =
        p.externalEvents := by
  refine ⟨?_, rfl⟩
  apply List.ext_getElem?
  intro m
  simp only [applyAction, List.getElem?_map, List.getElem?_modify]
  by_cases h : i = m <;> cases p.layouts[m]? <;> simp [h, Layout.flags]

/-- The shared-data rebuild changes no dirty flag and no sheet. -/
theorem replay_updates_frame (c : Collaborators) (acts : List Action) (p : Project)
    (h : acts.all Action.isSharedDataUpdate = true) :
    (replay c acts p).layouts.map Layout.flags = p.layouts.map Layout.flags ∧
      (replay c acts p).externalEvents = p.externalEvents := by
  induction acts generalizing p with
  | nil => simp [replay]
  | cons a as ih =>
    simp only [List.all_cons, Bool.and_eq_true] at h
    obtain ⟨ha, has⟩ := h
    cases a <;> simp only [Action.isSharedDataUpdate, Bool.false_eq_true] at ha
    rename_i i
    have ih2 := ih (applyAction c (Action.UpdateAutomatismsSharedData i) p) has
    have h0 := applyAction_update_frame c i p
    simp only [replay, List.foldl_cons] at ih2 ⊢
    rw [ih2.1, ih2.2, h0.1, h0.2]
    exact ⟨rfl, rfl⟩

theorem sharedDataUpdateActions_all (p : Project) (scope : Option Nat) :
    (sharedDataUpdateActions p scope).all Action.isSharedDataUpdate = true := by
  cases scope <;> simp [sharedDataUpdateActions, Action.isSharedDataUpdate]

theorem fullRecompilationActions_all_not_update (c : Collaborators) (p : Project)
    (scope : Option Nat) :
    (fullRecompilationActions c p scope).all (fun a => !a.isSharedDataUpdate) = true := by
  cases scope with
  | some i =>
    simp only [fullRecompilationActions, List.all_cons, List.all_append,
      stampActions_all_not_update]
    simp [Action.isSharedDataUpdate]
  | none =>
    simp [fullRecompilationActions, List.all_append, List.all_flatMap, Action.isSharedDataUpdate]

/-- C8: for a specific scene or for all scenes, `OnObjectsDeleted` first makes the shared-data
rebuild calls of that scope (UpdateAutomatismsSharedData on the scene, or on every layout) and
then does exactly what `OnObjectAdded` (a full recompilation request) does for the same scope
on the rebuilt project.  It returns; its calls are the rebuild calls followed by the full
recompilation calls; the rebuild calls are all UpdateAutomatismsSharedData and none of the
later calls is; and the rebuild itself changes no dirty flag and no sheet, so it precedes every
flag change, timestamp bump and task request. -/
theorem C8_objects_deleted (c : Collaborators) (s : State) (scope : Option Nat)
    (deletedObjects : List String) (object : Object) :
    RequestAutomatismsSharedDataUpdate c s scope =
        performAll c (sharedDataUpdateActions s.project scope) s ∧
      OnObjectsDeleted c s scope deletedObjects =
        OnObjectAdded c (RequestAutomatismsSharedDataUpdate c s scope) scope object ∧
      (∃ s', OnObjectsDeleted c s scope deletedObjects = Except.ok s' ∧
        s'.trace = s.trace ++
          (sharedDataUpdateActions s.project scope ++
            fullRecompilationActions c (RequestAutomatismsSharedDataUpdate c s scope).project
              scope)) ∧
      (sharedDataUpdateActions s.project scope).all Action.isSharedDataUpdate = true ∧
      (fullRecompilationActions c (RequestAutomatismsSharedDataUpdate c s scope).project
        scope).all (fun a => !a.isSharedDataUpdate) = true ∧
      (RequestAutomatismsSharedDataUpdate c s scope).project.layouts.map Layout.flags =
        s.project.layouts.map Layout.flags ∧
      (RequestAutomatismsSharedDataUpdate c s scope).project.externalEvents =
        s.project.externalEvents := by
  have hu := RequestAutomatismsSharedDataUpdate_eq c s scope
  have hfr := replay_updates_frame c _ s.project (sharedDataUpdateActions_all s.project scope)
  refine ⟨hu, rfl, ?_, sharedDataUpdateActions_all _ _,
    fullRecompilationActions_all_not_update _ _ _, ?_, ?_⟩
  · refine ⟨_, RequestFullRecompilation_eq c _ scope, ?_⟩
    rw [performAll_eq, hu, performAll_eq]
    simp
  · rw [hu, performAll_eq]
    exact hfr.1
  · rw [hu, performAll_eq]
    exact hfr.2

/-! ## Compilation never comes without refresh -/

theorem Accompanied_nil : Accompanied [] := by
  intro j h
  simp at h

theorem Accompanied_append (as bs : List Action) (ha : Accompanied as) (hb : Accompanied bs) :
    Accompanied (as ++ bs) := by
  intro j h
  simp only [List.mem_append] at h ⊢
  rcases h with (h | h) | (h | h)
  · exact Or.inl (ha j (Or.inl h))
  · exact Or.inr (hb j (Or.inl h))
  · exact Or.inl (ha j (Or.inr h))
  · exact Or.inr (hb j (Or.inr h))

theorem Accompanied_fullRecompilation (c : Collaborators) (p : Project) (scope : Option Nat) :
    Accompanied (fullRecompilationActions c p scope) := by
  intro j h
  cases scope with
  | some i =>
    simp only [fullRecompilationActions, List.mem_cons, List.mem_append, List.mem_singleton,
      List.not_mem_nil, or_false] at h ⊢
    rcases h with (h | h | h) | (h | h | h)
    · cases h
    · rcases mem_stampActions c p _ _ h with ⟨k, hk⟩
      cases hk
    · cases h
    · cases h
    · rcases mem_stampActions c p _ _ h with ⟨k, hk⟩
      cases hk
    · cases h
      exact Or.inl rfl
  | none =>
    simp only [fullRecompilationActions, List.mem_append, List.mem_flatMap, List.mem_range,
      List.mem_cons, List.mem_singleton, List.not_mem_nil, or_false, List.mem_map] at h ⊢
    rcases h with (⟨i, hi, h | h⟩ | ⟨k, _, h⟩) | (⟨i, hi, h | h⟩ | ⟨k, _, h⟩)
    · cases h
    · cases h
      exact Or.inl ⟨_, hi, Or.inl rfl⟩
    · cases h
    · cases h
    · cases h
    · cases h

theorem Accompanied_sharedDataUpdate (p : Project) (scope : Option Nat) :
    Accompanied (sharedDataUpdateActions p scope) := by
  intro j h
  cases scope <;> simp [sharedDataUpdateActions] at h

theorem OnEventsModified_Layout_calls (c : Collaborators) (s : State) (scene : Nat)
    (indirectChange : Bool) (source : String) :
    ∃ acts, OnEventsModified_Layout c s scene indirectChange source = performAll c acts s ∧
      Accompanied acts := by
  have h3 : Accompanied [Action.SetRefreshNeeded scene, Action.SetCompilationNeeded scene,
      Action.CreateSceneEventsCompilationTask scene] := by
    intro j h
    rcases h with h | h <;> simp at h <;> simp [h]
  have h1 : Accompanied [Action.SetRefreshNeeded scene] := by
    intro j h
    simp at h
  unfold OnEventsModified_Layout
  cases indirectChange
  · exact ⟨[Action.SetRefreshNeeded scene, Action.SetCompilationNeeded scene,
      Action.CreateSceneEventsCompilationTask scene], rfl, h3⟩
  · simp only [Bool.not_true, Bool.false_eq_true, if_false]
    split
    · exact ⟨[Action.SetRefreshNeeded scene], rfl, h1⟩
    · exact ⟨[Action.SetRefreshNeeded scene, Action.SetCompilationNeeded scene,
        Action.CreateSceneEventsCompilationTask scene], rfl, h3⟩

theorem OnEventsModified_ExternalEvents_calls (c : Collaborators) (s : State) (events : Nat)
    (indirectChange : Bool) (source : String) :
    ∃ acts, OnEventsModified_ExternalEvents c s events indirectChange source =
        performAll c acts s ∧ Accompanied acts := by
  have h2 : Accompanied [Action.SetLastChangeTimeStamp events c.Now,
      Action.CreateExternalEventsCompilationTask events] := by
    intro j h
    simp at h
  have hb : ∃ acts, perform c (Action.CreateExternalEventsCompilationTask events)
      (perform c (Action.SetLastChangeTimeStamp events c.Now) s) = performAll c acts s ∧
        Accompanied acts :=
    ⟨[Action.SetLastChangeTimeStamp events c.Now,
      Action.CreateExternalEventsCompilationTask events], rfl, h2⟩
  unfold OnEventsModified_ExternalEvents
  simp only []
  split
  · split
    · split
      · exact ⟨[], rfl, Accompanied_nil⟩
      · exact hb
    · exact hb
  · exact ⟨[], rfl, Accompanied_nil⟩

theorem runEventsModifiedCalls_calls (c : Collaborators) (calls : List EventsModifiedCall)
    (s : State) :
    ∃ acts, runEventsModifiedCalls c calls s = performAll c acts s ∧ Accompanied acts := by
  induction calls generalizing s with
  | nil => exact ⟨[], rfl, Accompanied_nil⟩
  | cons call calls ih =>
    have hhead : ∃ acts,
        (match call with
          | EventsModifiedCall.layout i indirect source =>
              OnEventsModified_Layout c s i indirect source
          | EventsModifiedCall.externalEvents k indirect source =>
              OnEventsModified_ExternalEvents c s k indirect source) = performAll c acts s ∧
          Accompanied acts := by
      cases call with
      | layout i indirect source => exact OnEventsModified_Layout_calls c s i indirect source
      | externalEvents k indirect source =>
        exact OnEventsModified_ExternalEvents_calls c s k indirect source
    obtain ⟨as, has, hacc⟩ := hhead
    obtain ⟨bs, hbs, hbcc⟩ := ih (performAll c as s)
    refine ⟨as ++ bs, ?_, Accompanied_append _ _ hacc hbcc⟩
    simp only [runEventsModifiedCalls, List.foldl_cons] at hbs ⊢
    rw [has, hbs, performAll_append]

/-- Every operation returns, and what it does is a list of calls in which compilation never
comes without refresh. -/
theorem step_calls (c : Collaborators) (op : Op) (s : State) :
    ∃ acts, step c op s = Except.ok (performAll c acts s) ∧ Accompanied acts := by
  have hfull : ∀ (scope : Option Nat),
      ∃ acts, RequestFullRecompilation c s scope = Except.ok (performAll c acts s) ∧
        Accompanied acts :=
    fun scope => ⟨_, RequestFullRecompilation_eq c s scope,
      Accompanied_fullRecompilation c s.project scope⟩
  have hboth : ∀ (scope : Option Nat),
      ∃ acts, RequestFullRecompilation c (RequestAutomatismsSharedDataUpdate c s scope) scope =
          Except.ok (performAll c acts s) ∧ Accompanied acts := by
    intro scope
    refine ⟨sharedDataUpdateActions s.project scope ++
      fullRecompilationActions c (RequestAutomatismsSharedDataUpdate c s scope).project scope,
      ?_, Accompanied_append _ _ (Accompanied_sharedDataUpdate _ _)
        (Accompanied_fullRecompilation _ _ _)⟩
    rw [RequestFullRecompilation_eq, performAll_append,
      ← RequestAutomatismsSharedDataUpdate_eq]
  have hrefresh : ∀ (scope : Option Nat),
      ∃ acts, (match scope with
          | some i => perform c (Action.SetRefreshNeeded i) s
          | none => forEachLayout (fun i acc => perform c (Action.SetRefreshNeeded i) acc) s) =
            performAll c acts s ∧ Accompanied acts := by
    intro scope
    cases scope with
    | some i =>
      refine ⟨[Action.SetRefreshNeeded i], rfl, ?_⟩
      intro j h
      simp at h
    | none =>
      refine ⟨(List.range s.project.layouts.length).map Action.SetRefreshNeeded,
        refreshLoop_performAll c s, ?_⟩
      intro j h
      simp at h
  have hok : ∀ (r : State), (∃ acts, r = performAll c acts s ∧ Accompanied acts) →
      ∃ acts, (pure r : Except Error State) = Except.ok (performAll c acts s) ∧
        Accompanied acts := by
    rintro r ⟨acts, h, hacc⟩
    exact ⟨acts, by rw [h]; rfl, hacc⟩
  cases op with
  | OnObjectEdited scene object => exact hok _ (hrefresh scene)
  | OnObjectAdded layout object => exact hfull layout
  | OnObjectRenamed layout object oldName => exact hfull layout
  | OnVariablesModified layout => exact hfull layout
  | OnObjectGroupAdded layout groupName => exact hfull layout
  | OnObjectGroupEdited layout groupName => exact hfull layout
  | OnObjectGroupRenamed layout groupName oldName => exact hfull layout
  | OnObjectGroupDeleted layout groupName => exact hfull layout
  | OnObjectsDeleted layout deletedObjects => exact hboth layout
  | OnAutomatismEdited scene object automatism => exact hok _ (hrefresh scene)
  | OnAutomatismAdded layout object automatism => exact hboth layout
  | OnAutomatismRenamed layout object automatism oldName => exact hboth layout
  | OnAutomatismDeleted layout object automatismName => exact hboth layout
  | OnObjectVariablesChanged scene object =>
    apply hok
    cases scene with
    | some i => exact hrefresh (some i)
    | none =>
      exact ⟨_, broadcast_eq c s, Accompanied_fullRecompilation c s.project none⟩
  | OnEventsModified_Layout scene indirectChange source =>
    exact hok _ (OnEventsModified_Layout_calls c s scene indirectChange source)
  | OnEventsModified_ExternalEvents events indirectChange source =>
    exact hok _ (OnEventsModified_ExternalEvents_calls c s events indirectChange source)
  | OnLayoutAdded layout => exact hok _ (runEventsModifiedCalls_calls c _ s)
  | OnLayoutRenamed layout oldName => exact hok _ (runEventsModifiedCalls_calls c _ s)
  | OnExternalEventsAdded events => exact hok _ (runEventsModifiedCalls_calls c _ s)
  | OnExternalEventsRenamed events oldName => exact hok _ (runEventsModifiedCalls_calls c _ s)
  | OnExternalEventsDeleted deletedLayout => exact hfull none
  | OnLayoutDeleted deletedLayout => exact hfull none
  | OnResourceModified resourceName =>
    apply hok
    refine ⟨[Action.imagesChangedPushBack resourceName], rfl, ?_⟩
    intro j h
    simp at h

/-- One call, seen from layout `j`: the layout was there before; its refresh-needed flag is
kept, and set by SetRefreshNeeded(j); its compilation-needed flag is kept, and only
SetCompilationNeeded(j) can set it. -/
theorem applyAction_layout (c : Collaborators) (a : Action) (p : Project) (j : Nat)
    (l' : Layout) (h : (applyAction c a p).layouts[j]? = some l') :
    ∃ l, p.layouts[j]? = some l ∧
      (l.refreshNeeded = true → l'.refreshNeeded = true) ∧
      (a = Action.SetRefreshNeeded j → l'.refreshNeeded = true) ∧
      (l.compilationNeeded = true → l'.compilationNeeded = true) ∧
      (l'.compilationNeeded = true →
        l.compilationNeeded = true ∨ a = Action.SetCompilationNeeded j) := by
  cases a with
  | SetRefreshNeeded i =>
    simp only [applyAction, List.getElem?_modify] at h
    cases hl : p.layouts[j]? with
    | none => simp [hl] at h
    | some l =>
      refine ⟨l, rfl, ?_⟩
      by_cases hij : i = j
      · simp [hl, hij] at h
        subst h
        simp
      · simp [hl, hij] at h
        subst h
        simp [hij]
  | SetCompilationNeeded i =>
    simp only [applyAction, List.getElem?_modify] at h
    cases hl : p.layouts[j]? with
    | none => simp [hl] at h
    | some l =>
      refine ⟨l, rfl, ?_⟩
      by_cases hij : i = j
      · simp [hl, hij] at h
        subst h
        simp [hij]
      · simp [hl, hij] at h
        subst h
        exact ⟨id, by simp, id, Or.inl⟩
  | UpdateAutomatismsSharedData i =>
    simp only [applyAction, List.getElem?_modify] at h
    cases hl : p.layouts[j]? with
    | none => simp [hl] at h
    | some l =>
      refine ⟨l, rfl, ?_⟩
      by_cases hij : i = j
      · simp [hl, hij] at h
        subst h
        simp
      · simp [hl, hij] at h
        subst h
        simp
  | SetLastChangeTimeStamp k t0 => exact ⟨l', h, by simp⟩
  | CreateSceneEventsCompilationTask i => exact ⟨l', h, by simp⟩
  | CreateExternalEventsCompilationTask k => exact ⟨l', h, by simp⟩
  | imagesChangedPushBack r => exact ⟨l', h, by simp⟩

/-- A list of calls, seen from layout `j`. -/
theorem replay_layout (c : Collaborators) (acts : List Action) (p : Project) (j : Nat)
    (l' : Layout) (h : (replay c acts p).layouts[j]? = some l') :
    ∃ l, p.layouts[j]? = some l ∧
      (l.refreshNeeded = true → l'.refreshNeeded = true) ∧
      (Action.SetRefreshNeeded j ∈ acts → l'.refreshNeeded = true) ∧
      (l.compilationNeeded = true → l'.compilationNeeded = true) ∧
      (l'.compilationNeeded = true →
        l.compilationNeeded = true ∨ Action.SetCompilationNeeded j ∈ acts) := by
  induction acts generalizing p with
  | nil =>
    refine ⟨l', h, ?_⟩
    simp
  | cons a as ih =>
    obtain ⟨m, hm, k1, k2, k3, k4⟩ := ih (applyAction c a p) h
    obtain ⟨l, hl, g1, g2, g3, g4⟩ := applyAction_layout c a p j m hm
    refine ⟨l, hl, fun hr => k1 (g1 hr), ?_, fun hc => k3 (g3 hc), ?_⟩
    · intro hmem
      rcases List.mem_cons.mp hmem with heq | hin
      · exact k1 (g2 heq.symm)
      · exact k2 hin
    · intro hc
      rcases k4 hc with hmc | hin
      · rcases g4 hmc with hlc | heq
        · exact Or.inl hlc
        · exact Or.inr (by rw [heq]; exact List.mem_cons_self _ _)
      · exact Or.inr (List.mem_cons_of_mem _ hin)

/-- C6: for every operation of the notifier, every state and every layout `j` of the project:
if the calls made by the operation include SetCompilationNeeded(j) or
CreateSceneEventsCompilationTask(j), or if the compilation-needed flag of `j` goes from false
to true, then the refresh-needed flag of `j` is set when the operation returns. -/
theorem C6_compile_implies_refresh (c : Collaborators) (op : Op) (s s' : State)
    (acts : List Action) (j : Nat) (l l' : Layout)
    (hstep : step c op s = Except.ok s')
    (htrace : s'.trace = s.trace ++ acts)
    (hl : s.project.layouts[j]? = some l)
    (hl' : s'.project.layouts[j]? = some l')
    (h : Action.SetCompilationNeeded j ∈ acts ∨
      Action.CreateSceneEventsCompilationTask j ∈ acts ∨
      (l.compilationNeeded = false ∧ l'.compilationNeeded = true)) :
    l'.refreshNeeded = true := by
  obtain ⟨acts0, h0, hacc⟩ := step_calls c op s
  rw [h0] at hstep
  have hs' : s' = performAll c acts0 s := (Except.ok.inj hstep).symm
  rw [hs', performAll_eq] at htrace hl'
  simp only [] at htrace hl'
  have hacts : acts0 = acts := List.append_cancel_left htrace
  subst hacts
  obtain ⟨m, hm, _, k2, _, k4⟩ := replay_layout c acts0 s.project j l' hl'
  have hml : m = l := by
    rw [hl] at hm
    exact (Option.some.inj hm).symm
  subst hml
  apply k2
  apply hacc j
  rcases h with h | h | ⟨hf, ht⟩
  · exact Or.inl h
  · exact Or.inr h
  · rcases k4 ht with hc | hin
    · rw [hf] at hc
      cases hc
    · exact Or.inl hin

/-- Witness of C6 on the scenario of spec §8: deleting a layout marks scene B (position 1)
compilation-needed, and B is refresh-needed afterwards. -/
theorem C6_compile_implies_refresh_witness :
    step (specCollaborators 1000) (Op.OnLayoutDeleted "C") { project := scenario, trace := [] } =
        Except.ok
          { project := allDirty (specCollaborators 1000) scenario
            trace := fullRecompilationActions (specCollaborators 1000) scenario none } ∧
      Action.SetCompilationNeeded 1 ∈ fullRecompilationActions (specCollaborators 1000) scenario none ∧
      (({ name := "B", events := ["Y"], refreshNeeded := true, compilationNeeded := true,
          automatismsSharedData := 0 } : Layout).refreshNeeded = true) :=
  ⟨rfl, by decide,
    C6_compile_implies_refresh (specCollaborators 1000) (Op.OnLayoutDeleted "C")
      { project := scenario, trace := [] }
      { project := allDirty (specCollaborators 1000) scenario
        trace := fullRecompilationActions (specCollaborators 1000) scenario none }
      (fullRecompilationActions (specCollaborators 1000) scenario none) 1
      { name := "B", events := ["Y"], refreshNeeded := false, compilationNeeded := false,
        automatismsSharedData := 0 }
      { name := "B", events := ["Y"], refreshNeeded := true, compilationNeeded := true,
        automatismsSharedData := 0 }
      rfl rfl rfl rfl (Or.inl (by decide))⟩

/-! ## Flags are only ever set -/

theorem applyAction_layouts_length (c : Collaborators) (a : Action) (p : Project) :
    (applyAction c a p).layouts.length = p.layouts.length := by
  cases a <;> simp [applyAction]

theorem replay_layouts_length (c : Collaborators) (acts : List Action) (p : Project) :
    (replay c acts p).layouts.length = p.layouts.length := by
  induction acts generalizing p with
  | nil => rfl
  | cons a as ih =>
    have h := ih (applyAction c a p)
    simp only [replay, List.foldl_cons] at h ⊢
    rw [h, applyAction_layouts_length]

/-- C11: for every operation of the notifier, every state and every layout `j` of the project:
the operation returns a state in which layout `j` is still there, and a compilation-needed
flag, or a refresh-needed flag, that was set before the operation is still set after it. -/
theorem C11_flags_never_cleared (c : Collaborators) (op : Op) (s s' : State) (j : Nat)
    (l : Layout) (hstep : step c op s = Except.ok s')
    (hl : s.project.layouts[j]? = some l) :
    ∃ l', s'.project.layouts[j]? = some l' ∧
      (l.compilationNeeded = true → l'.compilationNeeded = true) ∧
      (l.refreshNeeded = true → l'.refreshNeeded = true) := by
  obtain ⟨acts, h0, _⟩ := step_calls c op s
  rw [h0] at hstep
  have hs' : s' = performAll c acts s := (Except.ok.inj hstep).symm
  subst hs'
  rw [performAll_eq]
  simp only []
  have hj : j < s.project.layouts.length := (List.getElem?_eq_some.mp hl).1
  have hj' : j < (replay c acts s.project).layouts.length := by
    rw [replay_layouts_length]; exact hj
  refine ⟨(replay c acts s.project).layouts[j], List.getElem?_eq_getElem hj', ?_⟩
  obtain ⟨m, hm, k1, _, k3, _⟩ :=
    replay_layout c acts s.project j _ (List.getElem?_eq_getElem hj')
  have hml : m = l := by
    rw [hl] at hm
    exact (Option.some.inj hm).symm
  subst hml
  exact ⟨k3, k1⟩

/-- Witness of C11: on the scenario of spec §8 with every layout already flagged, a cosmetic
edit of scene B leaves scene A (position 0) compilation-needed and refresh-needed. -/
theorem C11_flags_never_cleared_witness :
    ∃ l', (OnObjectEdited (specCollaborators 1000)
          { project := allDirty (specCollaborators 1000) scenario, trace := [] } (some 1)
          "crate").project.layouts[0]? = some l' ∧
      l'.compilationNeeded = true ∧ l'.refreshNeeded = true := by
  obtain ⟨l', h1, h2, h3⟩ :=
    C11_flags_never_cleared (specCollaborators 1000) (Op.OnObjectEdited (some 1) "crate")
      { project := allDirty (specCollaborators 1000) scenario, trace := [] }
      (OnObjectEdited (specCollaborators 1000)
        { project := allDirty (specCollaborators 1000) scenario, trace := [] } (some 1) "crate")
      0
      { name := "A", events := ["X", "Y"], refreshNeeded := true, compilationNeeded := true,
        automatismsSharedData := 0 }
      rfl rfl
  exact ⟨l', h1, h2 rfl, h3 rfl⟩

/-! ## Indirect changes that are not covered -/

/-- C12: when the analyzer (constructed after `S` has been marked refresh-needed) returns for
the origin something else than the name of `S`, an indirect events change reported on scene
`S` gives exactly the state and the calls of a direct change: `S` refresh-needed and
compilation-needed, the calls SetRefreshNeeded(S), SetCompilationNeeded(S),
CreateSceneEventsCompilationTask(S), and nothing else changed. -/
theorem C12_indirect_uncovered_edit (c : Collaborators) (s : State) (S : Nat) (l : Layout)
    (origin directOrigin : String) (hS : s.project.layouts[S]? = some l)
    (hown : c.ExternalEventsCanBeCompiledForAScene
        { s.project with layouts := s.project.layouts.set S { l with refreshNeeded := true } }
        origin ≠ l.name) :
    OnEventsModified_Layout c s S true origin =
        OnEventsModified_Layout c s S false directOrigin ∧
      OnEventsModified_Layout c s S true origin =
        { project :=
            { s.project with
              layouts := s.project.layouts.set S
                { l with refreshNeeded := true, compilationNeeded := true } }
          trace := s.trace ++
            [Action.SetRefreshNeeded S, Action.SetCompilationNeeded S,
              Action.CreateSceneEventsCompilationTask S] } := by
  have hdirect : OnEventsModified_Layout c s S false directOrigin =
      perform c (Action.CreateSceneEventsCompilationTask S)
        (perform c (Action.SetCompilationNeeded S) (perform c (Action.SetRefreshNeeded S) s)) := by
    simp only [OnEventsModified_Layout, Bool.not_false, if_true]
  have hindirect : OnEventsModified_Layout c s S true origin =
      perform c (Action.CreateSceneEventsCompilationTask S)
        (perform c (Action.SetCompilationNeeded S) (perform c (Action.SetRefreshNeeded S) s)) := by
    simp only [OnEventsModified_Layout, Bool.not_true, Bool.false_eq_true, if_false]
    have hp := perform_refresh c s S l hS
    have hn := GetName_set s.project S l { l with refreshNeeded := true } hS rfl
    simp only [] at hn hown
    rw [hp]
    simp only []
    rw [hn, if_neg hown]
  rw [hindirect, hdirect]
  exact ⟨rfl, OnEventsModified_Layout_compile c s S l hS⟩

/-- Witness of C12 on the scenario of spec §8: an indirect change reported on scene B
(position 1) with origin X, whose exclusive owner is A. -/
theorem C12_indirect_uncovered_edit_witness :
    OnEventsModified_Layout (specCollaborators 1000) { project := scenario, trace := [] } 1 true
        "X" =
      { project :=
          { scenario with
            layouts := scenario.layouts.set 1
              { name := "B", events := ["Y"], refreshNeeded := true, compilationNeeded := true,
                automatismsSharedData := 0 } }
        trace := [] ++
          [Action.SetRefreshNeeded 1, Action.SetCompilationNeeded 1,
            Action.CreateSceneEventsCompilationTask 1] } :=
  (C12_indirect_uncovered_edit (specCollaborators 1000) { project := scenario, trace := [] } 1
    { name := "B", events := ["Y"], refreshNeeded := false, compilationNeeded := false,
      automatismsSharedData := 0 }
    "X" "" rfl (by decide)).2

/-! ## Sheets compiled separately, and scenes without a name -/

/-- C13, the code at the failing input: on the scenario of spec §8 sheet X (position 0) is
compiled separately (the analyzer returns "A" for it); a direct change reported on X with
`sourceOfTheIndirectChange = "X"` leaves the state as it was, with no timestamp set and no
task requested, whereas the same report flagged as indirect stamps X and requests its task. -/
theorem C13_direct_sheet_edit_skipped :
    GetExternalEventsName scenario 0 = "X" ∧
      exclusiveOwnerOf scenario "X" = "A" ∧
      OnEventsModified_ExternalEvents (specCollaborators 1000) { project := scenario, trace := [] }
          0 false "X" = { project := scenario, trace := [] } ∧
      OnEventsModified_ExternalEvents (specCollaborators 1000) { project := scenario, trace := [] }
          0 true "X" =
        stampedAndScheduled (specCollaborators 1000) { project := scenario, trace := [] } 0
          { name := "X", events := [], lastChangeTimeStamp := 0 } := by
  decide

/-- C14, the code at the failing input: in `unnamedSceneProject` the first layout has the empty
name and sheet Y, included by both layouts, has no exclusive owner (the analyzer returns the
empty string); an indirect change reported on that layout with origin Y is skipped: the only
call is SetRefreshNeeded, the layout is not marked compilation-needed and no task is
requested. -/
theorem C14_unnamed_scene_skipped :
    GetName unnamedSceneProject 0 = "" ∧
      exclusiveOwnerOf unnamedSceneProject "Y" = "" ∧
      (OnEventsModified_Layout (specCollaborators 1000)
          { project := unnamedSceneProject, trace := [] } 0 true "Y").trace =
        [Action.SetRefreshNeeded 0] ∧
      ((OnEventsModified_Layout (specCollaborators 1000)
          { project := unnamedSceneProject, trace := [] } 0 true "Y").project.layouts[0]?).map
            Layout.compilationNeeded = some false := by
  decide

/-! ## Which sheets a scene-specific request stamps -/

theorem findExternalEvents_none_of_not_mem (n : String) :
    ∀ (E : List ExternalEvents), n ∉ E.map ExternalEvents.name → findExternalEvents n E = none
  | [], _ => rfl
  | e :: es, h => by
    simp only [List.map_cons, List.mem_cons, not_or] at h
    have hne : ¬ e.name = n := fun heq => h.1 heq.symm
    simp [findExternalEvents, hne, findExternalEvents_none_of_not_mem n es h.2]

theorem map_stamp_of_not_mem (t : Int) (n : String) (E : List ExternalEvents)
    (h : n ∉ E.map ExternalEvents.name) :
    E.map (fun e => if e.name = n then { e with lastChangeTimeStamp := t } else e) = E := by
  induction E with
  | nil => rfl
  | cons e es ih =>
    simp only [List.map_cons, List.mem_cons, not_or] at h
    have hne : ¬ e.name = n := fun heq => h.1 heq.symm
    simp only [List.map_cons, hne, if_false, ih h.2]

/-- With distinct sheet names, stamping the first sheet of a name stamps every sheet of that
name. -/
theorem stampFirst_eq_map (t : Int) (n : String) :
    ∀ (E : List ExternalEvents), (E.map ExternalEvents.name).Nodup →
      (match findExternalEvents n E with
        | some k => E.modify (fun e => { e with lastChangeTimeStamp := t }) k
        | none => E) =
        E.map (fun e => if e.name = n then { e with lastChangeTimeStamp := t } else e)
  | [], _ => rfl
  | e :: es, hnd => by
    simp only [List.map_cons, List.nodup_cons] at hnd
    by_cases he : e.name = n
    · have hnot : n ∉ es.map ExternalEvents.name := he ▸ hnd.1
      simp [findExternalEvents, he, map_stamp_of_not_mem t n es hnot]
    · have ih := stampFirst_eq_map t n es hnd.2
      cases hf : findExternalEvents n es with
      | none =>
        rw [hf] at ih
        simp only [findExternalEvents, he, if_false, hf, Option.map_none', List.map_cons]
        rw [← ih]
      | some k =>
        rw [hf] at ih
        simp only [findExternalEvents, he, if_false, hf, Option.map_some', List.map_cons]
        rw [← ih]
        rfl

/-- With distinct sheet names, the timestamp calls for a list of dependency names stamp
exactly the sheets whose name is in the list. -/
theorem replay_stampActions_externalEvents (c : Collaborators) (p : Project)
    (hnd : (p.externalEvents.map ExternalEvents.name).Nodup) (names : List String) :
    ∀ (q : Project),
      q.externalEvents.map ExternalEvents.name = p.externalEvents.map ExternalEvents.name →
      (replay c (stampActions c p names) q).externalEvents =
        q.externalEvents.map
          (fun e => if e.name ∈ names then { e with lastChangeTimeStamp := c.Now } else e) := by
  induction names with
  | nil =>
    intro q _
    simp [stampActions, replay]
  | cons n ns ih =>
    intro q hq
    have hfq : findExternalEvents n p.externalEvents = findExternalEvents n q.externalEvents :=
      findExternalEvents_congr n _ _ hq.symm
    have hndq : (q.externalEvents.map ExternalEvents.name).Nodup := hq ▸ hnd
    have hfirst := stampFirst_eq_map c.Now n q.externalEvents hndq
    cases hf : findExternalEvents n p.externalEvents with
    | none =>
      have hs : stampActions c p (n :: ns) = stampActions c p ns := by
        simp [stampActions, hf]
      rw [hs, ih q hq]
      rw [← hfq, hf] at hfirst
      simp only [] at hfirst
      conv_lhs => rw [hfirst]
      rw [List.map_map]
      apply List.map_congr_left
      intro e _
      by_cases h1 : e.name = n <;> by_cases h2 : e.name ∈ ns <;> simp [h1, h2]
    | some k =>
      have hs : stampActions c p (n :: ns) =
          Action.SetLastChangeTimeStamp k c.Now :: stampActions c p ns := by
        simp [stampActions, hf]
      rw [← hfq, hf] at hfirst
      simp only [] at hfirst
      have hq1 : (applyAction c (Action.SetLastChangeTimeStamp k c.Now) q).externalEvents.map
          ExternalEvents.name = p.externalEvents.map ExternalEvents.name := by
        rw [applyAction_sheet_names, hq]
      have h1 := ih (applyAction c (Action.SetLastChangeTimeStamp k c.Now) q) hq1
      rw [hs]
      simp only [replay, List.foldl_cons] at h1 ⊢
      rw [h1]
      simp only [applyAction]
      rw [hfirst, List.map_map]
      apply List.map_congr_left
      intro e _
      by_cases h1 : e.name = n <;> by_cases h2 : e.name ∈ ns <;> simp [h1, h2]

/-- C15: for every project whose external sheets have distinct names and every scene `S` of
it, `RequestFullRecompilation` with `scene = S` returns (the lookup by name never fails, a
dependency name without a sheet being skipped), and afterwards the sheets whose name is in
the analyzer's dependency set of the events of `S` carry the current time as last-change
timestamp while every other sheet is unchanged. -/
theorem C15_dependencies_stamped (c : Collaborators) (s : State) (S : Nat) (l : Layout)
    (hS : s.project.layouts[S]? = some l)
    (hnames : (s.project.externalEvents.map ExternalEvents.name).Nodup) :
    ∃ s', RequestFullRecompilation c s (some S) = Except.ok s' ∧
      s'.project.externalEvents =
        s.project.externalEvents.map
          (fun e =>
            if e.name ∈ c.GetExternalEventsDependencies
                { s.project with
                  layouts := s.project.layouts.set S { l with refreshNeeded := true } }
                l.events
            then { e with lastChangeTimeStamp := c.Now } else e) := by
  refine ⟨_, RequestFullRecompilation_eq c s (some S), ?_⟩
  rw [performAll_eq]
  simp only [fullRecompilationActions]
  have hev : GetEvents s.project S = l.events := by simp [GetEvents, hS]
  have hp : applyAction c (Action.SetRefreshNeeded S) s.project =
      { s.project with layouts := s.project.layouts.set S { l with refreshNeeded := true } } := by
    simp only [applyAction]
    rw [modify_eq_set_of_getElem? _ _ _ _ hS]
  rw [hev, hp]
  have hrep := replay_stampActions_externalEvents c s.project hnames
    (c.GetExternalEventsDependencies
      { s.project with layouts := s.project.layouts.set S { l with refreshNeeded := true } }
      l.events)
    (applyAction c (Action.SetRefreshNeeded S) s.project) rfl
  simp only [replay, List.foldl_cons, List.foldl_append, List.foldl_nil] at hrep ⊢
  simp only [applyAction] at hrep ⊢
  rw [← hp] at hrep ⊢
  simp only [applyAction] at hrep ⊢
  exact hrep

/-- Witness of C15: in `scenarioWithMissingSheet` scene A includes sheet X and a sheet "Gone"
that the project does not have; the request returns, X is stamped with the current time 1000
and Y keeps its timestamp 0. -/
theorem C15_dependencies_stamped_witness :
    (scenarioWithMissingSheet.externalEvents.map ExternalEvents.name).Nodup ∧
      externalDependenciesOf
          { scenarioWithMissingSheet with
            layouts := scenarioWithMissingSheet.layouts.set 0
              { name := "A", events := ["X", "Gone"], refreshNeeded := true,
                compilationNeeded := false, automatismsSharedData := 0 } }
          ["X", "Gone"] = ["X", "Gone"] ∧
      ∃ s', RequestFullRecompilation (specCollaborators 1000)
            { project := scenarioWithMissingSheet, trace := [] } (some 0) = Except.ok s' ∧
        s'.project.externalEvents =
          [ { name := "X", events := [], lastChangeTimeStamp := 1000 },
            { name := "Y", events := [], lastChangeTimeStamp := 0 } ] := by
  refine ⟨by decide, by decide, ?_⟩
  obtain ⟨s', h1, h2⟩ :=
    C15_dependencies_stamped (specCollaborators 1000)
      { project := scenarioWithMissingSheet, trace := [] } 0
      { name := "A", events := ["X", "Gone"], refreshNeeded := false, compilationNeeded := false,
        automatismsSharedData := 0 }
      rfl (by decide)
  refine ⟨s', h1, ?_⟩
  rw [h2]
  decide

/-! ## What a scene-specific request leaves undone -/

/-- C16, as stated, fails: on the scenario of spec §8 a full recompilation request for scene A
(position 0) returns with A refresh-needed and its scene task requested, but A is not
compilation-needed, whereas a direct events edit of A leaves it compilation-needed. -/
theorem C16_counterexample :
    ∃ s', RequestFullRecompilation (specCollaborators 1000)
          { project := scenario, trace := [] } (some 0) = Except.ok s' ∧
      (s'.project.layouts[0]?).map Layout.refreshNeeded = some true ∧
      (s'.project.layouts[0]?).map Layout.compilationNeeded = some false ∧
      ((OnEventsModified_Layout (specCollaborators 1000) { project := scenario, trace := [] } 0
          false "").project.layouts[0]?).map Layout.compilationNeeded = some true :=
  ⟨performAll (specCollaborators 1000)
      (fullRecompilationActions (specCollaborators 1000) scenario (some 0))
      { project := scenario, trace := [] },
    rfl, by decide, by decide, by decide⟩

/-- C16, amended: a scene-specific full recompilation request for scene `S` returns; after it
`S` is refresh-needed, its compilation-needed flag is what it was before (the layout list
changes at position `S` only, by the refresh-needed flag), and a scene compilation task for
`S` is among the calls made. -/
theorem C16_scene_request_refresh_and_task (c : Collaborators) (s : State) (S : Nat)
    (l : Layout) (hS : s.project.layouts[S]? = some l) :
    ∃ s', RequestFullRecompilation c s (some S) = Except.ok s' ∧
      s'.project.layouts = s.project.layouts.set S { l with refreshNeeded := true } ∧
      s'.trace = s.trace ++ fullRecompilationActions c s.project (some S) ∧
      Action.CreateSceneEventsCompilationTask S ∈ fullRecompilationActions c s.project (some S) ∧
      Action.SetCompilationNeeded S ∉ fullRecompilationActions c s.project (some S) := by
  refine ⟨_, RequestFullRecompilation_eq c s (some S), ?_, ?_, ?_, ?_⟩
  · rw [performAll_eq]
    simp only []
    rw [(replay_fullRecompilation_some c s.project S).1, modify_eq_set_of_getElem? _ _ _ _ hS]
  · rw [performAll_eq]
  · simp [fullRecompilationActions]
  · intro hmem
    simp only [fullRecompilationActions, List.mem_cons, List.mem_append, List.mem_singleton,
      List.not_mem_nil, or_false] at hmem
    rcases hmem with h | h | h
    · cases h
    · rcases mem_stampActions c s.project _ _ h with ⟨k, hk⟩
      cases hk
    · cases h

/-- Witness of the amended C16 on the scenario of spec §8: a request for scene A. -/
theorem C16_scene_request_refresh_and_task_witness :
    ∃ s', RequestFullRecompilation (specCollaborators 1000)
          { project := scenario, trace := [] } (some 0) = Except.ok s' ∧
      s'.project.layouts =
        scenario.layouts.set 0
          { name := "A", events := ["X", "Y"], refreshNeeded := true, compilationNeeded := false,
            automatismsSharedData := 0 } ∧
      Action.CreateSceneEventsCompilationTask 0 ∈ s'.trace := by
  obtain ⟨s', h1, h2, h3, h4, _⟩ :=
    C16_scene_request_refresh_and_task (specCollaborators 1000)
      { project := scenario, trace := [] } 0
      { name := "A", events := ["X", "Y"], refreshNeeded := false, compilationNeeded := false,
        automatismsSharedData := 0 }
      rfl
  refine ⟨s', h1, h2, ?_⟩
  rw [h3]
  exact List.mem_append_right _ h4

end ChangesNotifier
